import Mathlib

/-!
Shallow embedding of the subtitle synchronization and persistence engine of the
srt-reading-helper application (source: src/unnamed/part_000), together with
proofs about its specified properties.

Modelling conventions:
* JavaScript numbers are modelled by `JSNum`: either `nan` or a rational value.
  The `JSNum` arithmetic instances compute with exact rationals; they are used
  only where IEEE-754 rounding is not load-bearing (NaN propagation and the
  comparison logic of the sync engine).  Where rounding is load-bearing — the
  round-trip behaviour of the time codec — the binary64 semantics is modelled
  explicitly: every finite double is a dyadic rational, and `roundDouble`
  below performs the round-to-nearest, ties-to-even rounding of each `+`, `*`
  and `/` (see `timeToSecondsF` / `secondsToTimeStrF`).  `Infinity` never
  arises in the modelled code paths: the only divisions are by the nonzero
  literals 1000, 3600 and 60.
* A thrown JavaScript exception (e.g. calling a method on `undefined`) is
  modelled by `Except Unit`, with `.error ()` the thrown state.
* JavaScript strings are Lean `String`s; `String.prototype.split`,
  `trim`, `padStart`, `Number.parseInt` and `Number.prototype.toString`
  are modelled character-faithfully below.
-/

inductive JSNum where
  | nan : JSNum
  | num : ℚ → JSNum
deriving DecidableEq

def JSNum.add : JSNum → JSNum → JSNum
  | JSNum.num a, JSNum.num b => JSNum.num (a + b)
  | _, _ => JSNum.nan

def JSNum.mul : JSNum → JSNum → JSNum
  | JSNum.num a, JSNum.num b => JSNum.num (a * b)
  | _, _ => JSNum.nan

/-- JavaScript division.  The modelled program divides only by the literal
1000, so the `b = 0` case (JS `Infinity`/`NaN`) is collapsed to `nan`. -/
def JSNum.div : JSNum → JSNum → JSNum
  | JSNum.num a, JSNum.num b => if b = 0 then JSNum.nan else JSNum.num (a / b)
  | _, _ => JSNum.nan

def JSNum.neg : JSNum → JSNum
  | JSNum.num a => JSNum.num (-a)
  | JSNum.nan => JSNum.nan

instance : Add JSNum := ⟨JSNum.add⟩

instance : Mul JSNum := ⟨JSNum.mul⟩

instance : Div JSNum := ⟨JSNum.div⟩

instance (n : ℕ) : OfNat JSNum n := ⟨JSNum.num n⟩

instance {ε α : Type} [DecidableEq ε] [DecidableEq α] : DecidableEq (Except ε α) := fun a b =>
  match a, b with
  | Except.error e1, Except.error e2 =>
    if h : e1 = e2 then isTrue (congrArg Except.error h)
    else isFalse (fun hh => h (Except.error.inj hh))
  | Except.error _, Except.ok _ => isFalse (fun hh => Except.noConfusion hh)
  | Except.ok _, Except.error _ => isFalse (fun hh => Except.noConfusion hh)
  | Except.ok a1, Except.ok a2 =>
    if h : a1 = a2 then isTrue (congrArg Except.ok h)
    else isFalse (fun hh => h (Except.ok.inj hh))

/-- JS `a <= b`: false whenever either operand is `NaN`. -/
def jsLe : JSNum → JSNum → Bool
  | JSNum.num a, JSNum.num b => decide (a ≤ b)
  | _, _ => false

/-- JS `a >= b`: false whenever either operand is `NaN`. -/
def jsGe : JSNum → JSNum → Bool
  | JSNum.num a, JSNum.num b => decide (b ≤ a)
  | _, _ => false

/-- Decimal digit test (`'0'..'9'`). -/
def isDigitChar (c : Char) : Bool := 48 ≤ c.toNat && c.toNat ≤ 57

def digitVal (c : Char) : ℕ := c.toNat - 48

/-- Whitespace characters stripped by JS `trim` / skipped by `parseInt`
(the ASCII ones; the program never feeds exotic Unicode whitespace). -/
def isJsSpace (c : Char) : Bool :=
  c.toNat = 32 || c.toNat = 9 || c.toNat = 10 || c.toNat = 13 || c.toNat = 11 || c.toNat = 12

/-- Numeric value of a list of decimal digit characters, most significant first. -/
def natOfDigits (l : List Char) : ℕ := l.foldl (fun a c => 10 * a + digitVal c) 0

def hexDigitVal (c : Char) : Option ℕ :=
  if 48 ≤ c.toNat ∧ c.toNat ≤ 57 then some (c.toNat - 48)
  else if 97 ≤ c.toNat ∧ c.toNat ≤ 102 then some (c.toNat - 87)
  else if 65 ≤ c.toNat ∧ c.toNat ≤ 70 then some (c.toNat - 55)
  else none

def jsParseIntHex (l : List Char) : JSNum :=
  let d := l.takeWhile (fun c => (hexDigitVal c).isSome)
  if d.isEmpty then JSNum.nan
  else JSNum.num (d.foldl (fun a c => 16 * a + (hexDigitVal c).getD 0) 0)

def jsParseIntDec (l : List Char) : JSNum :=
  let d := l.takeWhile isDigitChar
  if d.isEmpty then JSNum.nan else JSNum.num (natOfDigits d)

/-- Magnitude part of JS `parseInt` (after whitespace and sign handling):
a `0x`/`0X` prefix selects hexadecimal, otherwise leading decimal digits. -/
def jsParseIntAbs (l : List Char) : JSNum :=
  match l with
  | c0 :: c1 :: rest =>
    if c0 = '0' ∧ (c1 = 'x' ∨ c1 = 'X') then jsParseIntHex rest else jsParseIntDec l
  | _ => jsParseIntDec l

/-- Model of JS `Number.parseInt(string)` (radix argument omitted): skip leading
whitespace, an optional single sign, then parse a `0x` hex literal or leading
decimal digits; `NaN` when no digit follows. -/
def jsParseInt (s : String) : JSNum :=
  match s.data.dropWhile isJsSpace with
  | [] => JSNum.nan
  | c :: rest =>
    if c = '-' then (jsParseIntAbs rest).neg
    else if c = '+' then jsParseIntAbs rest
    else jsParseIntAbs (c :: rest)

/-- JS `Number.parseInt(undefined)` is `NaN` (destructuring a too-short array
yields `undefined`, which `parseInt` stringifies and fails to parse). -/
def jsParseIntUndef : Option String → JSNum
  | none => JSNum.nan
  | some s => jsParseInt s

/-- Try to match `ps` against the front of the second list; on success return
the remainder. -/
def matchHead : List Char → List Char → Option (List Char)
  | [], l => some l
  | _ :: _, [] => none
  | p :: ps, c :: cs => if p = c then matchHead ps cs else none

/-- Re-attach a character to the first group of a split result. -/
def consHead (a : Char) : List (List Char) → List (List Char)
  | [] => [[a]]
  | g :: gs => (a :: g) :: gs

/-- Fuelled worker for splitting on the (non-empty) separator `c0 :: cs`.
Each recursive call consumes at least one character, so fuel
`l.length + 1` always suffices. -/
def listSplitAux (c0 : Char) (cs : List Char) : ℕ → List Char → List (List Char)
  | 0, l => [l]
  | _ + 1, [] => [[]]
  | fuel + 1, a :: rest =>
    if a = c0 then
      match matchHead cs rest with
      | some rem => [] :: listSplitAux c0 cs fuel rem
      | none => consHead a (listSplitAux c0 cs fuel rest)
    else consHead a (listSplitAux c0 cs fuel rest)

def listSplit (c0 : Char) (cs : List Char) (l : List Char) : List (List Char) :=
  listSplitAux c0 cs (l.length + 1) l

/-- Model of JS `String.prototype.split(sep)` for a string separator:
repeatedly cut at the leftmost occurrence of `sep`.  (The program never
calls `split` with the empty separator; that case maps to the JS
split-into-characters behaviour.) -/
def jsSplit (sep s : String) : List String :=
  match sep.data with
  | [] => s.data.map (fun c => String.mk [c])
  | c0 :: cs => (listSplit c0 cs s.data).map (fun l => String.mk l)

/-- Model of JS `String.prototype.trim`. -/
def jsTrim (s : String) : String :=
  String.mk (((s.data.dropWhile isJsSpace).reverse.dropWhile isJsSpace).reverse)

/-- Model of JS `String.prototype.padStart(len, c)` for a one-character pad. -/
def jsPadStart (s : String) (len : ℕ) (c : Char) : String :=
  String.mk (List.replicate (len - s.data.length) c ++ s.data)

/-- The decimal digit character for a value below 10. -/
def digitChar (d : ℕ) : Char :=
  match d with
  | 0 => '0' | 1 => '1' | 2 => '2' | 3 => '3' | 4 => '4'
  | 5 => '5' | 6 => '6' | 7 => '7' | 8 => '8' | _ => '9'

/-- Decimal digit characters of `n`, most significant first (fuelled; fuel
`n + 1` always suffices since the argument shrinks by a factor of 10). -/
def natDigitsAux : ℕ → ℕ → List Char
  | 0, _ => []
  | fuel + 1, n =>
    if n < 10 then [digitChar n]
    else natDigitsAux fuel (n / 10) ++ [digitChar (n % 10)]

def natDigits (n : ℕ) : List Char := natDigitsAux (n + 1) n

/-- Model of JS `Number.prototype.toString()` on a nonnegative integer value. -/
def natToString (n : ℕ) : String := String.mk (natDigits n)

/-- Model of JS `Number.prototype.toString()` on an integer value. -/
def intToString (i : ℤ) : String :=
  if 0 ≤ i then natToString i.toNat else String.mk ('-' :: natDigits (-i).toNat)

/-- JS `Math.floor` on a (finite) number. -/
def mathFloor (q : ℚ) : ℤ := ⌊q⌋

/-- Truncation toward zero, as used by the JS `%` operator. -/
def jsTrunc (q : ℚ) : ℤ := if 0 ≤ q then ⌊q⌋ else ⌈q⌉

/-- JS remainder `a % b` on finite numbers (`a - b * trunc (a / b)`). -/
def jsMod (a b : ℚ) : ℚ := a - b * (jsTrunc (a / b) : ℚ)

/-!  Time Codec (source `timeToSeconds` / `secondsToTimeStr`). -/

/-- Embedding of `timeToSeconds` (src/unnamed/part_000, lines 358-367):
`const [hours, minutes, seconds] = timeStr.split(":")` followed by
`const [secs, ms] = seconds.split(",")`.  When the split yields fewer than
3 fields, `seconds` is `undefined` and `seconds.split(",")` throws a
`TypeError` (the `.error ()` case); a missing field handed to `parseInt`
is `undefined` and parses to `NaN`. -/
def timeToSeconds (timeStr : String) : Except Unit JSNum :=
  let parts := jsSplit ":" timeStr
  match parts[2]? with
  | none => Except.error ()
  | some seconds =>
    let sparts := jsSplit "," seconds
    Except.ok (jsParseIntUndef parts[0]? * 3600 + jsParseIntUndef parts[1]? * 60 +
      jsParseIntUndef sparts[0]? + jsParseIntUndef sparts[1]? / 1000)

/-- Embedding of `secondsToTimeStr` (src/unnamed/part_000, lines 369-376). -/
def secondsToTimeStr (seconds : ℚ) : String :=
  let hours := mathFloor (seconds / 3600)
  let minutes := mathFloor (jsMod seconds 3600 / 60)
  let secs := mathFloor (jsMod seconds 60)
  let ms := mathFloor (jsMod seconds 1 * 1000)
  jsPadStart (intToString hours) 2 '0' ++ ":" ++ jsPadStart (intToString minutes) 2 '0' ++ ":" ++
    jsPadStart (intToString secs) 2 '0' ++ "," ++ jsPadStart (intToString ms) 3 '0'

/-- The canonical textual timestamp `HH:MM:SS,mmm` built from four numeric
components (used to state which texts are valid timestamps). -/
def mkTimeText (h m s ms : ℕ) : String :=
  jsPadStart (natToString h) 2 '0' ++ ":" ++ jsPadStart (natToString m) 2 '0' ++ ":" ++
    jsPadStart (natToString s) 2 '0' ++ "," ++ jsPadStart (natToString ms) 3 '0'

/-!  Binary64 model of the time codec.

The JS engine evaluates `timeToSeconds` / `secondsToTimeStr` on IEEE-754
doubles, and that rounding is load-bearing for the round-trip behaviour
(e.g. `5/1000` is not representable).  Every finite double is a dyadic
rational, so binary64 arithmetic is modelled inside ℚ: an exact rational
result of `+`, `*` or `/` is mapped to the nearest double by `roundDouble`
(round to nearest, ties to even, on a 53-bit significand).  The exponent is
left unbounded: all values of the modelled computations lie far inside the
normal range of binary64, so overflow and subnormals never arise.  JS `%`
(C `fmod`) and `Math.floor` are exact operations on doubles, so `jsMod` and
`mathFloor` carry no rounding step; `Number.parseInt` of the (at most
7-digit) timestamp fields yields integers below `2^53`, which are exact. -/

/-- Round a rational to the nearest integer, ties to the even integer. -/
def rndHalfEven (q : ℚ) : ℤ :=
  let n := ⌊q⌋
  let r := q - (n : ℚ)
  if r < 1/2 then n
  else if 1/2 < r then n + 1
  else if n % 2 = 0 then n else n + 1

/-- Round a positive rational to the nearest binary64 value: scale the
significand into `[2^52, 2^53)`, round it half-to-even, scale back. -/
def roundPos (q : ℚ) : ℚ :=
  let e := Int.log 2 q
  (rndHalfEven (q * (2 : ℚ) ^ (52 - e)) : ℚ) * (2 : ℚ) ^ (e - 52)

/-- Round an exact rational result to the nearest binary64 double. -/
def roundDouble (q : ℚ) : ℚ :=
  if q = 0 then 0 else if 0 < q then roundPos q else -roundPos (-q)

/-- Double addition: exact sum, then one rounding. -/
def fadd (a b : ℚ) : ℚ := roundDouble (a + b)

/-- Double multiplication: exact product, then one rounding. -/
def fmul (a b : ℚ) : ℚ := roundDouble (a * b)

/-- Double division: exact quotient, then one rounding. -/
def fdiv (a b : ℚ) : ℚ := roundDouble (a / b)

/-- `JSNum` addition under binary64 semantics. -/
def JSNum.addF : JSNum → JSNum → JSNum
  | JSNum.num a, JSNum.num b => JSNum.num (fadd a b)
  | _, _ => JSNum.nan

/-- `JSNum` multiplication under binary64 semantics. -/
def JSNum.mulF : JSNum → JSNum → JSNum
  | JSNum.num a, JSNum.num b => JSNum.num (fmul a b)
  | _, _ => JSNum.nan

/-- `JSNum` division under binary64 semantics (the modelled program divides
only by nonzero literals, so the `b = 0` case is collapsed to `nan`). -/
def JSNum.divF : JSNum → JSNum → JSNum
  | JSNum.num a, JSNum.num b => if b = 0 then JSNum.nan else JSNum.num (fdiv a b)
  | _, _ => JSNum.nan

/-- Embedding of `timeToSeconds` (src/unnamed/part_000, lines 358-367) under
binary64 semantics: the same computation as `timeToSeconds`, with each `*`,
`+` and `/` rounded to the nearest double, left-associated as in the source
expression `parseInt(hours) * 3600 + parseInt(minutes) * 60 + parseInt(secs)
+ parseInt(ms) / 1000`. -/
def timeToSecondsF (timeStr : String) : Except Unit JSNum :=
  let parts := jsSplit ":" timeStr
  match parts[2]? with
  | none => Except.error ()
  | some seconds =>
    let sparts := jsSplit "," seconds
    Except.ok (JSNum.addF (JSNum.addF (JSNum.addF
      (JSNum.mulF (jsParseIntUndef parts[0]?) (JSNum.num 3600))
      (JSNum.mulF (jsParseIntUndef parts[1]?) (JSNum.num 60)))
      (jsParseIntUndef sparts[0]?))
      (JSNum.divF (jsParseIntUndef sparts[1]?) (JSNum.num 1000)))

/-- Embedding of `secondsToTimeStr` (src/unnamed/part_000, lines 369-376)
under binary64 semantics: the two divisions and the `* 1000` each round;
`%` (fmod) and `Math.floor` are exact on doubles. -/
def secondsToTimeStrF (seconds : ℚ) : String :=
  let hours := mathFloor (fdiv seconds 3600)
  let minutes := mathFloor (fdiv (jsMod seconds 3600) 60)
  let secs := mathFloor (jsMod seconds 60)
  let ms := mathFloor (fmul (jsMod seconds 1) 1000)
  jsPadStart (intToString hours) 2 '0' ++ ":" ++ jsPadStart (intToString minutes) 2 '0' ++ ":" ++
    jsPadStart (intToString secs) 2 '0' ++ "," ++ jsPadStart (intToString ms) 3 '0'

/-!  Transcript Parser (source `parseSRT`). -/

/-- A parsed subtitle entry.  `id` is a `JSNum` because `Number.parseInt` can
yield `NaN`; `endTime` is optional because destructuring
`lines[1].split(" --> ")` leaves it `undefined` when the arrow separator is
absent. -/
structure Subtitle where
  id : JSNum
  startTime : String
  endTime : Option String
  text : String
deriving DecidableEq

/-- Embedding of `parseSRT` (src/unnamed/part_000, lines 198-219): split the
trimmed input on blank lines, then a `for` loop pushing one entry per block
with at least 3 lines.  (`split` never returns an empty array, so the
`getD ""` defaults for indices 0 are never taken.) -/
def parseSRT (srtContent : String) : List Subtitle :=
  let blocks := jsSplit "\n\n" (jsTrim srtContent)
  blocks.foldl (fun subtitles block =>
    let lines := jsSplit "\n" block
    if 3 ≤ lines.length then
      let times := jsSplit " --> " ((lines[1]?).getD "")
      subtitles ++ [{ id := jsParseIntUndef lines[0]?,
                      startTime := (times[0]?).getD "",
                      endTime := times[1]?,
                      text := String.intercalate "\n" (lines.drop 2) }]
    else subtitles) []

/-- The entry produced from one accepted block, written declaratively
(line 1 parsed as integer, line 2 split on the arrow, the rest joined);
used to characterise `parseSRT` block by block. -/
def blockEntry (block : String) : Subtitle :=
  let lines := jsSplit "\n" block
  let times := jsSplit " --> " ((lines[1]?).getD "")
  { id := jsParseIntUndef lines[0]?,
    startTime := (times[0]?).getD "",
    endTime := times[1]?,
    text := String.intercalate "\n" (lines.drop 2) }

/-!  Sync Engine (source `getCurrentSubtitles` / `getCurrentSubtitleIndex`). -/

/-- `timeToSeconds` applied to a possibly-`undefined` string: calling
`.split` on `undefined` throws immediately. -/
def timeToSecondsOpt : Option String → Except Unit JSNum
  | none => Except.error ()
  | some s => timeToSeconds s

/-- The filter predicate of `getCurrentSubtitles`:
`currentTime >= timeToSeconds(sub.startTime) && currentTime <= timeToSeconds(sub.endTime)`,
with JS short-circuit evaluation of `&&`. -/
def subMatches (currentTime : ℚ) (sub : Subtitle) : Except Unit Bool :=
  match timeToSeconds sub.startTime with
  | Except.error e => Except.error e
  | Except.ok s =>
    if jsGe (JSNum.num currentTime) s then
      match timeToSecondsOpt sub.endTime with
      | Except.error e => Except.error e
      | Except.ok e2 => Except.ok (jsLe (JSNum.num currentTime) e2)
    else Except.ok false

/-- Embedding of `getCurrentSubtitles` (src/unnamed/part_000, lines 383-389):
`subtitles.filter(...)`; an exception thrown by the predicate aborts the
whole filter. -/
def getCurrentSubtitles (subs : List Subtitle) (currentTime : ℚ) :
    Except Unit (List Subtitle) :=
  match subs with
  | [] => Except.ok []
  | sub :: rest =>
    match subMatches currentTime sub with
    | Except.error e => Except.error e
    | Except.ok keep =>
      match getCurrentSubtitles rest currentTime with
      | Except.error e => Except.error e
      | Except.ok matched => Except.ok (if keep then sub :: matched else matched)

/-- JS `Array.prototype.findIndex` with the `subMatches` predicate,
accumulating the current index; returns `-1` when nothing matches. -/
def findIndexGo (currentTime : ℚ) : List Subtitle → ℤ → Except Unit ℤ
  | [], _ => Except.ok (-1)
  | sub :: rest, i =>
    match subMatches currentTime sub with
    | Except.error e => Except.error e
    | Except.ok keep => if keep then Except.ok i else findIndexGo currentTime rest (i + 1)

/-- The backward `for` loop of `getCurrentSubtitleIndex`: given the entries
paired with their indices, highest index first, return the first whose
`startTime` parses `<= currentTime`; `-1` when none has started. -/
def scanPrev (currentTime : ℚ) : List (ℕ × Subtitle) → Except Unit ℤ
  | [] => Except.ok (-1)
  | (i, sub) :: rest =>
    match timeToSeconds sub.startTime with
    | Except.error e => Except.error e
    | Except.ok v =>
      if jsLe v (JSNum.num currentTime) then Except.ok (i : ℤ) else scanPrev currentTime rest

/-- Embedding of `getCurrentSubtitleIndex` (src/unnamed/part_000, lines
458-490): first `findIndex` over the containment predicate, then, when that
returns `-1`, a backward scan for the most recently started entry. -/
def getCurrentSubtitleIndex (subs : List Subtitle) (currentTime : ℚ) : Except Unit ℤ :=
  match findIndexGo currentTime subs 0 with
  | Except.error e => Except.error e
  | Except.ok exactIndex =>
    if exactIndex ≠ -1 then Except.ok exactIndex
    else scanPrev currentTime subs.enum.reverse

/-- The numeric value of a timestamp text, when it parses to a finite number. -/
def tsVal (s : String) : Option ℚ :=
  match timeToSeconds s with
  | Except.ok (JSNum.num q) => some q
  | _ => none

def tsValOpt : Option String → Option ℚ
  | none => none
  | some s => tsVal s

/-- Specification-side containment test: the entry's `[start, end]` interval
contains `t` (inclusive on both ends); false when either bound is not a
finite number. -/
def specContainsB (t : ℚ) (sub : Subtitle) : Bool :=
  match tsVal sub.startTime, tsValOpt sub.endTime with
  | some s, some e => decide (s ≤ t) && decide (t ≤ e)
  | _, _ => false

/-- Specification-side "has started" test: the entry's start is `<= t`. -/
def specStartedB (t : ℚ) (sub : Subtitle) : Bool :=
  match tsVal sub.startTime with
  | some s => decide (s ≤ t)
  | none => false

/-- `activeIndex` as the specification words it: the index of the first entry
containing `time`; otherwise the index of the last entry whose start is
`<= time`; otherwise `-1`. -/
def activeIndexSpec (subs : List Subtitle) (t : ℚ) : ℤ :=
  match List.findIdx? (fun sub => specContainsB t sub) subs with
  | some i => (i : ℤ)
  | none =>
    match (subs.enum.filter (fun p => specStartedB t p.2)).getLast? with
    | some p => (p.1 : ℤ)
    | none => -1

/-!  Persistence Store (source `saveSubtitles` / `loadSubtitles` /
`deleteVideo` / `listVideos` / `handleSaveSubtitle`). -/

/-- The value stored in the `subtitles` object store:
`{ videoKey, subtitles, lastModified }`. -/
structure TranscriptRecord where
  videoKey : String
  subtitles : List Subtitle
  lastModified : ℕ
deriving DecidableEq

/-- The value stored in the `videos` object store:
`{ file, name, lastModified, type, size }` (the blob is abstracted to its
contents). -/
structure VideoRecord where
  fileData : String
  name : String
  lastModified : ℕ
  type : String
  size : ℕ
deriving DecidableEq

/-- First value bound to a key in an association list (a keyed object store;
the key-ordering IndexedDB maintains is immaterial to the claims, which only
use membership). -/
def assocGet {α : Type} : List (String × α) → String → Option α
  | [], _ => none
  | p :: rest, k => if p.1 = k then some p.2 else assocGet rest k

/-- `store.put(value, key)`: overwrite the binding of `k` if present,
otherwise add it. -/
def assocPut {α : Type} (rows : List (String × α)) (k : String) (v : α) :
    List (String × α) :=
  if rows.any (fun p => p.1 = k) then
    rows.map (fun p => if p.1 = k then (k, v) else p)
  else rows ++ [(k, v)]

/-- `store.delete(key)`: remove any binding of `k` (succeeding even when the
key is absent). -/
def assocDelete {α : Type} (rows : List (String × α)) (k : String) :
    List (String × α) :=
  rows.filter (fun p => ¬ p.1 = k)

/-- Embedding of `saveSubtitles` (src/unnamed/part_000, lines 82-102):
`put({videoKey, subtitles, lastModified: Date.now()}, videoKey)`; the clock
reading is passed in as `now`. -/
def saveSubtitles (now : ℕ) (videoKey : String) (subtitles : List Subtitle)
    (store : List (String × TranscriptRecord)) : List (String × TranscriptRecord) :=
  assocPut store videoKey ⟨videoKey, subtitles, now⟩

/-- Embedding of `loadSubtitles` (src/unnamed/part_000, lines 104-117):
`get(videoKey)` and resolve `data?.subtitles || null`. -/
def loadSubtitles (videoKey : String) (store : List (String × TranscriptRecord)) :
    Option (List Subtitle) :=
  (assocGet store videoKey).map (fun r => r.subtitles)

/-- The two object stores of the database. -/
structure DB where
  videos : List (String × VideoRecord)
  subtitles : List (String × TranscriptRecord)
deriving DecidableEq

/-- One element of the `listVideos` result:
`{ key: ${data.name}, name, size, type }`. -/
structure VideoListing where
  key : String
  name : String
  size : ℕ
  type : String
deriving DecidableEq

/-- Embedding of `listVideos` (src/unnamed/part_000, lines 139-159). -/
def listVideos (db : DB) : List VideoListing :=
  db.videos.map (fun p => ⟨p.2.name, p.2.name, p.2.size, p.2.type⟩)

/-- Embedding of `deleteVideo` (src/unnamed/part_000, lines 161-189): one
readwrite transaction deleting the video row and the subtitles row, resolved
through `Promise.all`.  `videoDeleteOk` / `subtitlesDeleteOk` are the
outcomes of the two underlying delete requests (absence of the key is a
success); if either fails the whole operation rejects once. -/
def deleteVideo (videoDeleteOk subtitlesDeleteOk : Bool) (key : String) (db : DB) :
    Except Unit DB :=
  if videoDeleteOk && subtitlesDeleteOk then
    Except.ok ⟨assocDelete db.videos key, assocDelete db.subtitles key⟩
  else Except.error ()

/-- JS strict equality `===` on numbers: false whenever either side is `NaN`. -/
def jsStrictEqNum : JSNum → JSNum → Bool
  | JSNum.num a, JSNum.num b => decide (a = b)
  | _, _ => false

/-- The slice of component state that `handleSaveSubtitle` touches. -/
structure AppSubState where
  currentVideoKey : String
  subtitles : List Subtitle
  store : List (String × TranscriptRecord)
deriving DecidableEq

/-- Embedding of `handleSaveSubtitle` (src/unnamed/part_000, lines 593-607):
early-return when no video key is selected (empty string is falsy), else
`subtitles.map(sub => sub.id === editedSubtitle.id ? editedSubtitle : sub)`
and a re-save of the whole set under the current key. -/
def handleSaveSubtitle (now : ℕ) (editedSubtitle : Subtitle) (st : AppSubState) :
    AppSubState :=
  if st.currentVideoKey = "" then st
  else
    let updatedSubtitles := st.subtitles.map (fun sub =>
      if jsStrictEqNum sub.id editedSubtitle.id then editedSubtitle else sub)
    { currentVideoKey := st.currentVideoKey,
      subtitles := updatedSubtitles,
      store := saveSubtitles now st.currentVideoKey updatedSubtitles st.store }

/-!  Scroll Coordinator (source `handleScroll` and the auto-scroll effect). -/

/-- Scroll-coordinator state: the `isUserScrolling` flag and the deadline (in
ms) of the pending one-shot timeout, if any (`scrollTimeoutRef`). -/
structure ScrollState where
  isUserScrolling : Bool
  scrollTimeout : Option ℕ
deriving DecidableEq

/-- Embedding of `handleScroll` (src/unnamed/part_000, lines 392-406) run at
absolute time `now` (ms): set the flag, clear any pending timeout, start a
fresh 1000 ms one. -/
def handleScroll (now : ℕ) (_s : ScrollState) : ScrollState :=
  { isUserScrolling := true, scrollTimeout := some (now + 1000) }

/-- The timeout callback: reset the flag (the fired timer is no longer
pending). -/
def fireScrollTimeout (_s : ScrollState) : ScrollState :=
  { isUserScrolling := false, scrollTimeout := none }

/-- The guard of the auto-scroll effect (src/unnamed/part_000, lines 410-428):
`currentSubs.length > 0 && !isUserScrolling && subtitlesContainerRef.current
&& isPlaying`, followed by the `getElementById` lookup; `scrollIntoView` runs
only when all hold. -/
def autoScrollInvoked (s : ScrollState)
    (hasActive containerExists isPlaying elementFound : Bool) : Bool :=
  hasActive && !s.isUserScrolling && containerExists && isPlaying && elementFound

/-- Events driving the scroll coordinator: a user scroll, the pending timeout
firing, or one run of the auto-scroll effect (whose environment inputs are
carried on the event). -/
inductive ScrollEvent where
  | userScroll : ScrollEvent
  | timerFire : ScrollEvent
  | autoCheck (hasActive containerExists isPlaying elementFound : Bool) : ScrollEvent
deriving DecidableEq

/-- One step of the coordinator at absolute time `now`; the second component
records whether this step invoked `scrollIntoView`. -/
def scrollStep (now : ℕ) (e : ScrollEvent) (s : ScrollState) : ScrollState × Bool :=
  match e with
  | ScrollEvent.userScroll => (handleScroll now s, false)
  | ScrollEvent.timerFire => (fireScrollTimeout s, false)
  | ScrollEvent.autoCheck a c p f => (s, autoScrollInvoked s a c p f)

/-- A timed event trace is valid when time is monotone and a `timerFire`
happens exactly at the pending deadline (an overwritten deadline is a
cancelled timer, which never fires). -/
def validTraceB : ScrollState → ℕ → List (ℕ × ScrollEvent) → Bool
  | _, _, [] => true
  | s, now, (t, e) :: rest =>
    now ≤ t &&
    (match e with
     | ScrollEvent.timerFire => s.scrollTimeout = some t
     | _ => true) &&
    validTraceB (scrollStep t e s).1 t rest

/-- The times at which a trace invokes `scrollIntoView`. -/
def invokedTimes : ScrollState → List (ℕ × ScrollEvent) → List ℕ
  | _, [] => []
  | s, (t, e) :: rest =>
    (if (scrollStep t e s).2 then [t] else []) ++ invokedTimes (scrollStep t e s).1 rest

/-!  Control-Mode volume steps (source `handleKeyDown` arrow cases and
`handleVolumeChange`). -/

structure VolumeState where
  volume : ℚ
  isMuted : Bool
deriving DecidableEq

/-- Embedding of `handleVolumeChange` (src/unnamed/part_000, lines 615-622). -/
def handleVolumeChange (newVolume : ℚ) (st : VolumeState) : VolumeState :=
  { volume := newVolume,
    isMuted := if newVolume = 0 then true else if st.isMuted then false else st.isMuted }

inductive VolKey where
  | up : VolKey
  | down : VolKey
deriving DecidableEq

/-- The `arrowup` / `arrowdown` cases of `handleKeyDown` (src/unnamed/part_000,
lines 532-539): `handleVolumeChange(Math.min(1, volume + 0.1))` resp.
`handleVolumeChange(Math.max(0, volume - 0.1))`. -/
def handleVolumeKey : VolKey → VolumeState → VolumeState
  | VolKey.up, st => handleVolumeChange (min 1 (st.volume + 1/10)) st
  | VolKey.down, st => handleVolumeChange (max 0 (st.volume - 1/10)) st

def runVolumeKeys (st : VolumeState) (keys : List VolKey) : VolumeState :=
  keys.foldl (fun s k => handleVolumeKey k s) st

/-!  Digit-string lemmas. -/

theorem natOfDigits_foldl (l : List Char) (a : ℕ) :
    l.foldl (fun x c => 10 * x + digitVal c) a = a * 10 ^ l.length + natOfDigits l := by
  induction l generalizing a with
  | nil => simp [natOfDigits]
  | cons c t ih =>
    simp only [List.foldl_cons, natOfDigits, List.length_cons]
    rw [ih (10 * a + digitVal c), ih (10 * 0 + digitVal c)]
    ring

theorem natOfDigits_append (l1 l2 : List Char) :
    natOfDigits (l1 ++ l2) = natOfDigits l1 * 10 ^ l2.length + natOfDigits l2 := by
  simp only [natOfDigits, List.foldl_append]
  rw [natOfDigits_foldl l2 (List.foldl (fun x c => 10 * x + digitVal c) 0 l1)]
  rfl

theorem isDigitChar_digitChar (d : ℕ) (h : d < 10) : isDigitChar (digitChar d) = true := by
  interval_cases d <;> decide

theorem digitVal_digitChar (d : ℕ) (h : d < 10) : digitVal (digitChar d) = d := by
  interval_cases d <;> decide

theorem natDigitsAux_digits (fuel n : ℕ) (h : n < fuel) :
    ∀ c ∈ natDigitsAux fuel n, isDigitChar c = true := by
  induction fuel generalizing n with
  | zero => omega
  | succ f ih =>
    intro c hc
    by_cases h10 : n < 10
    · simp only [natDigitsAux, if_pos h10, List.mem_singleton] at hc
      rw [hc]; exact isDigitChar_digitChar n h10
    · simp only [natDigitsAux, if_neg h10, List.mem_append, List.mem_singleton] at hc
      rcases hc with hc | hc
      · exact ih (n / 10) (by omega) c hc
      · rw [hc]; exact isDigitChar_digitChar (n % 10) (Nat.mod_lt n (by omega))

theorem natDigitsAux_ne_nil (fuel n : ℕ) (h : n < fuel) : natDigitsAux fuel n ≠ [] := by
  cases fuel with
  | zero => omega
  | succ f =>
    by_cases h10 : n < 10
    · simp [natDigitsAux, if_pos h10]
    · simp [natDigitsAux, if_neg h10]

theorem natOfDigits_natDigitsAux (fuel n : ℕ) (h : n < fuel) :
    natOfDigits (natDigitsAux fuel n) = n := by
  induction fuel generalizing n with
  | zero => omega
  | succ f ih =>
    by_cases h10 : n < 10
    · simp only [natDigitsAux, if_pos h10, natOfDigits, List.foldl_cons, List.foldl_nil]
      rw [Nat.mul_zero, Nat.zero_add, digitVal_digitChar n h10]
    · simp only [natDigitsAux, if_neg h10]
      rw [natOfDigits_append]
      have hd : n / 10 < f := by
        have := Nat.div_lt_self (by omega : 0 < n) (by omega : 1 < 10)
        omega
      rw [ih (n / 10) hd]
      simp only [natOfDigits, List.length_singleton, List.foldl_cons, List.foldl_nil]
      rw [Nat.mul_zero, Nat.zero_add, digitVal_digitChar (n % 10) (Nat.mod_lt n (by omega))]
      omega

theorem natDigits_digits (n : ℕ) : ∀ c ∈ natDigits n, isDigitChar c = true :=
  natDigitsAux_digits (n + 1) n (Nat.lt_succ_self n)

theorem natDigits_ne_nil (n : ℕ) : natDigits n ≠ [] :=
  natDigitsAux_ne_nil (n + 1) n (Nat.lt_succ_self n)

theorem natOfDigits_natDigits (n : ℕ) : natOfDigits (natDigits n) = n :=
  natOfDigits_natDigitsAux (n + 1) n (Nat.lt_succ_self n)

theorem natOfDigits_replicate_zero (m : ℕ) : natOfDigits (List.replicate m '0') = 0 := by
  induction m with
  | zero => rfl
  | succ k ih =>
    rw [List.replicate_succ]
    have : natOfDigits ('0' :: List.replicate k '0') =
        natOfDigits ([] ++ '0' :: List.replicate k '0') := rfl
    rw [this, ← List.singleton_append, natOfDigits_append]
    simpa [natOfDigits, digitVal] using ih

/-!  Behaviour of `jsParseInt` on digit strings. -/

theorem digit_not_space {c : Char} (h : isDigitChar c = true) : isJsSpace c = false := by
  simp only [isDigitChar, Bool.and_eq_true, decide_eq_true_eq] at h
  simp only [isJsSpace, Bool.or_eq_false_iff, decide_eq_false_iff_not]
  omega

theorem digit_ne_char {c d : Char} (h : isDigitChar c = true) (hd : isDigitChar d = false) :
    c ≠ d := by
  intro e
  rw [e, hd] at h
  cases h

theorem takeWhile_all {p : Char → Bool} (l : List Char) (h : ∀ c ∈ l, p c = true) :
    l.takeWhile p = l := by
  induction l with
  | nil => rfl
  | cons c t ih =>
    rw [List.takeWhile_cons, h c (List.mem_cons_self c t)]
    simp [ih (fun x hx => h x (List.mem_cons_of_mem c hx))]

theorem jsParseIntDec_digits (l : List Char) (hne : l ≠ [])
    (hd : ∀ c ∈ l, isDigitChar c = true) :
    jsParseIntDec l = JSNum.num (natOfDigits l) := by
  simp only [jsParseIntDec, takeWhile_all l hd]
  rw [if_neg (by simpa [List.isEmpty_iff] using hne)]

theorem jsParseIntAbs_digits (l : List Char) (hne : l ≠ [])
    (hd : ∀ c ∈ l, isDigitChar c = true) :
    jsParseIntAbs l = JSNum.num (natOfDigits l) := by
  match l with
  | [] => exact absurd rfl hne
  | [c] => exact jsParseIntDec_digits [c] hne hd
  | c0 :: c1 :: rest =>
    have h1 : isDigitChar c1 = true := hd c1 (by simp)
    have hx : c1 ≠ 'x' := digit_ne_char h1 (by decide)
    have hX : c1 ≠ 'X' := digit_ne_char h1 (by decide)
    simp only [jsParseIntAbs]
    rw [if_neg (by rintro ⟨-, h | h⟩; exact hx h; exact hX h)]
    exact jsParseIntDec_digits _ hne hd

theorem jsParseInt_digits (l : List Char) (hne : l ≠ [])
    (hd : ∀ c ∈ l, isDigitChar c = true) :
    jsParseInt (String.mk l) = JSNum.num (natOfDigits l) := by
  match l with
  | [] => exact absurd rfl hne
  | c :: rest =>
    have hc : isDigitChar c = true := hd c (List.mem_cons_self c rest)
    have hdrop : (c :: rest).dropWhile isJsSpace = c :: rest := by
      rw [List.dropWhile_cons, digit_not_space hc]
      simp
    show jsParseInt (String.mk (c :: rest)) = JSNum.num (natOfDigits (c :: rest))
    simp only [jsParseInt, hdrop]
    rw [if_neg (digit_ne_char hc (by decide)), if_neg (digit_ne_char hc (by decide))]
    exact jsParseIntAbs_digits (c :: rest) hne hd

/-!  Padded digit strings. -/

theorem padStart_natToString_data (n k : ℕ) :
    (jsPadStart (natToString n) k '0').data =
      List.replicate (k - (natDigits n).length) '0' ++ natDigits n := rfl

theorem padStart_digits (n k : ℕ) :
    ∀ c ∈ (jsPadStart (natToString n) k '0').data, isDigitChar c = true := by
  rw [padStart_natToString_data]
  intro c hc
  rcases List.mem_append.mp hc with h | h
  · rw [List.eq_of_mem_replicate h]; decide
  · exact natDigits_digits n c h

theorem padStart_data_ne_nil (n k : ℕ) : (jsPadStart (natToString n) k '0').data ≠ [] := by
  rw [padStart_natToString_data]
  intro h
  exact natDigits_ne_nil n (List.append_eq_nil.mp h).2

theorem natOfDigits_padStart (n k : ℕ) :
    natOfDigits ((jsPadStart (natToString n) k '0').data) = n := by
  rw [padStart_natToString_data, natOfDigits_append, natOfDigits_replicate_zero,
    natOfDigits_natDigits]
  ring

theorem jsParseInt_padStart (n k : ℕ) :
    jsParseInt (jsPadStart (natToString n) k '0') = JSNum.num n := by
  have h := jsParseInt_digits ((jsPadStart (natToString n) k '0').data)
    (padStart_data_ne_nil n k) (padStart_digits n k)
  rw [natOfDigits_padStart] at h
  exact h

/-!  Single-character split lemmas. -/

theorem listSplit_single_cons (c a : Char) (l : List Char) :
    listSplit c [] (a :: l) =
      if a = c then [] :: listSplit c [] l else consHead a (listSplit c [] l) := by
  by_cases h : a = c
  · simp [listSplit, listSplitAux, matchHead, h]
  · simp [listSplit, listSplitAux, matchHead, h]

theorem listSplit_single_not_mem (c : Char) (l : List Char) (hc : c ∉ l) :
    listSplit c [] l = [l] := by
  induction l with
  | nil => rfl
  | cons a t ih =>
    rw [listSplit_single_cons,
      if_neg (fun e => hc (by rw [← e]; exact List.mem_cons_self a t)),
      ih (fun hm => hc (List.mem_cons_of_mem a hm))]
    rfl

theorem listSplit_single_append (c : Char) (l1 l2 : List Char) (hc : c ∉ l1) :
    listSplit c [] (l1 ++ c :: l2) = l1 :: listSplit c [] l2 := by
  induction l1 with
  | nil => rw [List.nil_append, listSplit_single_cons, if_pos rfl]
  | cons a t ih =>
    rw [List.cons_append, listSplit_single_cons,
      if_neg (fun e => hc (by rw [← e]; exact List.mem_cons_self a t)),
      ih (fun hm => hc (List.mem_cons_of_mem a hm))]
    rfl

theorem not_mem_pad_of_not_digit (n k : ℕ) (c : Char) (hc : isDigitChar c = false) :
    c ∉ (jsPadStart (natToString n) k '0').data := by
  intro h
  rw [padStart_digits n k c h] at hc
  cases hc

/-!  Parsing the canonical timestamp text. -/

theorem mkTimeText_data (a b c d : ℕ) :
    (mkTimeText a b c d).data =
      (jsPadStart (natToString a) 2 '0').data ++ ':' ::
      ((jsPadStart (natToString b) 2 '0').data ++ ':' ::
      ((jsPadStart (natToString c) 2 '0').data ++ ',' ::
       (jsPadStart (natToString d) 3 '0').data)) := by
  simp [mkTimeText, String.data_append]

theorem not_mem_of_all_digits (l : List Char) (hl : ∀ c ∈ l, isDigitChar c = true)
    (c : Char) (hc : isDigitChar c = false) : c ∉ l := by
  intro h
  rw [hl c h] at hc
  cases hc

theorem JSNum.num_add (a b : ℚ) : JSNum.num a + JSNum.num b = JSNum.num (a + b) := rfl

theorem JSNum.num_mul (a b : ℚ) : JSNum.num a * JSNum.num b = JSNum.num (a * b) := rfl

theorem JSNum.num_div (a b : ℚ) (hb : b ≠ 0) :
    JSNum.num a / JSNum.num b = JSNum.num (a / b) := by
  show JSNum.div _ _ = _
  simp [JSNum.div, hb]

theorem timeToSeconds_digits (A B C D : List Char)
    (hA : A ≠ [] ∧ ∀ c ∈ A, isDigitChar c = true)
    (hB : B ≠ [] ∧ ∀ c ∈ B, isDigitChar c = true)
    (hC : C ≠ [] ∧ ∀ c ∈ C, isDigitChar c = true)
    (hD : D ≠ [] ∧ ∀ c ∈ D, isDigitChar c = true) :
    timeToSeconds (String.mk (A ++ ':' :: (B ++ ':' :: (C ++ ',' :: D)))) =
      Except.ok (JSNum.num ((natOfDigits A : ℚ) * 3600 + (natOfDigits B : ℚ) * 60 +
        (natOfDigits C : ℚ) + (natOfDigits D : ℚ) / 1000)) := by
  have hsplit : jsSplit ":" (String.mk (A ++ ':' :: (B ++ ':' :: (C ++ ',' :: D)))) =
      [String.mk A, String.mk B, String.mk (C ++ ',' :: D)] := by
    show (listSplit ':' [] (A ++ ':' :: (B ++ ':' :: (C ++ ',' :: D)))).map String.mk = _
    rw [listSplit_single_append ':' _ _ (not_mem_of_all_digits A hA.2 ':' (by decide)),
      listSplit_single_append ':' _ _ (not_mem_of_all_digits B hB.2 ':' (by decide)),
      listSplit_single_not_mem ':' _ ?_]
    · rfl
    · intro hmem
      rcases List.mem_append.mp hmem with h | h
      · exact not_mem_of_all_digits C hC.2 ':' (by decide) h
      · rcases List.mem_cons.mp h with h | h
        · cases h
        · exact not_mem_of_all_digits D hD.2 ':' (by decide) h
  have hsplit2 : jsSplit "," (String.mk (C ++ ',' :: D)) = [String.mk C, String.mk D] := by
    show (listSplit ',' [] (C ++ ',' :: D)).map String.mk = _
    rw [listSplit_single_append ',' _ _ (not_mem_of_all_digits C hC.2 ',' (by decide)),
      listSplit_single_not_mem ',' _ (not_mem_of_all_digits D hD.2 ',' (by decide))]
    rfl
  simp only [timeToSeconds, hsplit]
  simp only [List.getElem?_cons_succ, List.getElem?_cons_zero, hsplit2]
  simp only [List.getElem?_cons_succ, List.getElem?_cons_zero, jsParseIntUndef]
  rw [jsParseInt_digits A hA.1 hA.2, jsParseInt_digits B hB.1 hB.2,
    jsParseInt_digits C hC.1 hC.2, jsParseInt_digits D hD.1 hD.2]
  have h3600 : (3600 : JSNum) = JSNum.num ((3600 : ℕ) : ℚ) := rfl
  have h60 : (60 : JSNum) = JSNum.num ((60 : ℕ) : ℚ) := rfl
  have h1000 : (1000 : JSNum) = JSNum.num ((1000 : ℕ) : ℚ) := rfl
  rw [h3600, h60, h1000, JSNum.num_mul, JSNum.num_mul,
    JSNum.num_div _ _ (by norm_num), JSNum.num_add, JSNum.num_add, JSNum.num_add]
  norm_num

theorem timeToSeconds_mkTimeText (a b c d : ℕ) :
    timeToSeconds (mkTimeText a b c d) =
      Except.ok (JSNum.num ((a : ℚ) * 3600 + (b : ℚ) * 60 + (c : ℚ) + (d : ℚ) / 1000)) := by
  have hmk : String.mk ((jsPadStart (natToString a) 2 '0').data ++ ':' ::
      ((jsPadStart (natToString b) 2 '0').data ++ ':' ::
      ((jsPadStart (natToString c) 2 '0').data ++ ',' ::
       (jsPadStart (natToString d) 3 '0').data))) = mkTimeText a b c d := by
    rw [← mkTimeText_data]
  have h := timeToSeconds_digits
    (jsPadStart (natToString a) 2 '0').data (jsPadStart (natToString b) 2 '0').data
    (jsPadStart (natToString c) 2 '0').data (jsPadStart (natToString d) 3 '0').data
    ⟨padStart_data_ne_nil a 2, padStart_digits a 2⟩
    ⟨padStart_data_ne_nil b 2, padStart_digits b 2⟩
    ⟨padStart_data_ne_nil c 2, padStart_digits c 2⟩
    ⟨padStart_data_ne_nil d 3, padStart_digits d 3⟩
  rw [hmk, natOfDigits_padStart, natOfDigits_padStart, natOfDigits_padStart,
    natOfDigits_padStart] at h
  exact h

/-!  Formatting a millisecond-integral value and parsing it back. -/

theorem floor_nat_div (k n : ℕ) : ⌊(k : ℚ) / (n : ℚ)⌋ = ((k / n : ℕ) : ℤ) := by
  have h := Rat.floor_intCast_div_natCast (k : ℤ) n
  push_cast at h
  rw [h]
  exact (Int.natCast_div k n).symm

theorem intToString_natCast (m : ℕ) : intToString (m : ℤ) = natToString m := by
  unfold intToString
  rw [if_pos (Int.natCast_nonneg m)]
  simp

theorem jsMod_div1000 (k n : ℕ) (hn : 0 < n) :
    jsMod ((k : ℚ) / 1000) (n : ℚ) = ((k % (1000 * n) : ℕ) : ℚ) / 1000 := by
  unfold jsMod jsTrunc
  rw [if_pos (by positivity : (0:ℚ) ≤ (k:ℚ)/1000/(n:ℚ))]
  have hdd : (k:ℚ)/1000/(n:ℚ) = (k:ℚ)/((1000*n : ℕ):ℚ) := by
    rw [div_div]; norm_cast
  rw [hdd, floor_nat_div, Int.cast_natCast]
  have hk : 1000 * n * (k / (1000 * n)) + k % (1000 * n) = k := Nat.div_add_mod k (1000 * n)
  have hq : 1000 * (n : ℚ) * ((k / (1000 * n) : ℕ) : ℚ) + ((k % (1000 * n) : ℕ) : ℚ)
      = (k : ℚ) := by exact_mod_cast hk
  field_simp
  linarith [hq]

theorem secondsToTimeStr_eq_mkTimeText (k : ℕ) :
    secondsToTimeStr ((k : ℚ) / 1000) =
      mkTimeText (k / 3600000) (k % 3600000 / 60000) (k % 60000 / 1000) (k % 1000) := by
  have hh : mathFloor ((k:ℚ)/1000/3600) = ((k / 3600000 : ℕ) : ℤ) := by
    unfold mathFloor
    rw [show (k:ℚ)/1000/3600 = (k:ℚ)/((3600000 : ℕ):ℚ) by rw [div_div]; norm_num]
    exact floor_nat_div k 3600000
  have hm : mathFloor (jsMod ((k:ℚ)/1000) 3600 / 60) = ((k % 3600000 / 60000 : ℕ) : ℤ) := by
    unfold mathFloor
    rw [show (3600 : ℚ) = ((3600 : ℕ) : ℚ) by norm_num, jsMod_div1000 k 3600 (by norm_num),
      show ((k % (1000 * 3600) : ℕ) : ℚ)/1000/60 = ((k % 3600000 : ℕ):ℚ)/((60000 : ℕ):ℚ) by
        rw [div_div]; norm_num]
    exact floor_nat_div (k % 3600000) 60000
  have hs : mathFloor (jsMod ((k:ℚ)/1000) 60) = ((k % 60000 / 1000 : ℕ) : ℤ) := by
    unfold mathFloor
    rw [show (60 : ℚ) = ((60 : ℕ) : ℚ) by norm_num, jsMod_div1000 k 60 (by norm_num),
      show ((k % (1000 * 60) : ℕ) : ℚ)/1000 = ((k % 60000 : ℕ):ℚ)/((1000 : ℕ):ℚ) by norm_num]
    exact floor_nat_div (k % 60000) 1000
  have hms : mathFloor (jsMod ((k:ℚ)/1000) 1 * 1000) = ((k % 1000 : ℕ) : ℤ) := by
    unfold mathFloor
    rw [show (1 : ℚ) = ((1 : ℕ) : ℚ) by norm_num, jsMod_div1000 k 1 (by norm_num),
      show ((k % (1000 * 1) : ℕ) : ℚ)/1000 * 1000 = ((k % 1000 : ℕ):ℚ) by
        rw [div_mul_cancel₀ _ (by norm_num : (1000:ℚ) ≠ 0)]]
    exact Int.floor_natCast (k % 1000)
  show jsPadStart (intToString (mathFloor ((k:ℚ)/1000/3600))) 2 '0' ++ ":" ++ _ ++ ":" ++ _ ++ "," ++ _ = _
  rw [hh, hm, hs, hms, intToString_natCast, intToString_natCast, intToString_natCast,
    intToString_natCast]
  rfl

theorem timeToSeconds_secondsToTimeStr (k : ℕ) :
    timeToSeconds (secondsToTimeStr ((k : ℚ) / 1000)) =
      Except.ok (JSNum.num ((k : ℚ) / 1000)) := by
  rw [secondsToTimeStr_eq_mkTimeText, timeToSeconds_mkTimeText]
  have hk : 3600000 * (k / 3600000) + 60000 * (k % 3600000 / 60000) +
      1000 * (k % 60000 / 1000) + k % 1000 = k := by omega
  have hq : 3600000 * ((k / 3600000 : ℕ) : ℚ) + 60000 * ((k % 3600000 / 60000 : ℕ) : ℚ) +
      1000 * ((k % 60000 / 1000 : ℕ) : ℚ) + ((k % 1000 : ℕ) : ℚ) = (k : ℚ) := by
    exact_mod_cast hk
  congr 1
  congr 1
  rw [eq_div_iff (by norm_num : (1000 : ℚ) ≠ 0)]
  ring_nf
  ring_nf at hq
  linarith [hq]

theorem JSNum.add_nan (a : JSNum) : a + JSNum.nan = JSNum.nan := by
  cases a <;> rfl

theorem JSNum.nan_add (a : JSNum) : JSNum.nan + a = JSNum.nan := rfl

theorem JSNum.nan_div (b : JSNum) : JSNum.nan / b = JSNum.nan := by
  cases b <;> rfl

theorem rndHalfEven_eq_of_lt_half (q : ℚ) (n : ℤ)
    (h1 : (n : ℚ) ≤ q) (h2 : q < (n : ℚ) + 1/2) : rndHalfEven q = n := by
  have hf : ⌊q⌋ = n := by
    rw [Int.floor_eq_iff]
    exact ⟨h1, by linarith⟩
  simp only [rndHalfEven]
  rw [hf, if_pos (by linarith : q - (n : ℚ) < 1/2)]

theorem rndHalfEven_eq_of_half_lt (q : ℚ) (n : ℤ)
    (h1 : (n : ℚ) + 1/2 < q) (h2 : q < (n : ℚ) + 1) : rndHalfEven q = n + 1 := by
  have hf : ⌊q⌋ = n := by
    rw [Int.floor_eq_iff]
    exact ⟨by linarith, by linarith⟩
  simp only [rndHalfEven]
  rw [hf, if_neg (by linarith : ¬(q - (n : ℚ) < 1/2)),
    if_pos (by linarith : 1/2 < q - (n : ℚ))]

/-- Evaluation rule for `roundDouble` on a positive rational: supply the
binade exponent `e` (so `2^e ≤ q < 2^(e+1)`) and the rounded 53-bit
significand `m`; the nearest double is `m * 2^(e-52)`. -/
theorem roundDouble_eval (q : ℚ) (e m : ℤ)
    (h1 : (2:ℚ)^e ≤ q) (h2 : q < (2:ℚ)^(e+1))
    (hm : rndHalfEven (q * (2:ℚ)^(52 - e)) = m) :
    roundDouble q = (m : ℚ) * (2:ℚ)^(e - 52) := by
  have h0 : 0 < q := lt_of_lt_of_le (by positivity) h1
  have he : Int.log 2 q = e := by
    have ha : e ≤ Int.log 2 q := (Int.zpow_le_iff_le_log (by norm_num) h0).mp h1
    have hb : Int.log 2 q < e + 1 := (Int.lt_zpow_iff_log_lt (by norm_num) h0).mp h2
    omega
  simp only [roundDouble, roundPos]
  rw [if_neg h0.ne', if_pos h0, he, hm]

/-- C1 (amended): under exact rational arithmetic, parsing a valid
`HH:MM:SS,mmm` timestamp text, formatting the parsed value, and parsing
again yields the same seconds value as parsing once.  The binary64
arithmetic the source actually performs does not satisfy this round trip:
the separate counterexample theorem exhibits the timestamp 00:00:01,005,
whose formatted millisecond field comes out one unit low. -/
theorem c1_parse_format_parse_roundtrip (h m s ms : ℕ)
    (_hm : m < 60) (_hs : s < 60) (_hms : ms < 1000) :
    ∃ q : ℚ, timeToSeconds (mkTimeText h m s ms) = Except.ok (JSNum.num q) ∧
      timeToSeconds (secondsToTimeStr q) = Except.ok (JSNum.num q) := by
  refine ⟨(h : ℚ) * 3600 + (m : ℚ) * 60 + (s : ℚ) + (ms : ℚ) / 1000,
    timeToSeconds_mkTimeText h m s ms, ?_⟩
  have hK : (h : ℚ) * 3600 + (m : ℚ) * 60 + (s : ℚ) + (ms : ℚ) / 1000 =
      ((3600000 * h + 60000 * m + 1000 * s + ms : ℕ) : ℚ) / 1000 := by
    push_cast
    field_simp
    ring
  rw [hK]
  exact timeToSeconds_secondsToTimeStr (3600000 * h + 60000 * m + 1000 * s + ms)

/-- Witness for C1 at the concrete timestamp 00:01:02,345. -/
theorem c1_parse_format_parse_roundtrip_witness :
    mkTimeText 0 1 2 345 = "00:01:02,345" ∧
    (∃ q : ℚ, timeToSeconds (mkTimeText 0 1 2 345) = Except.ok (JSNum.num q) ∧
      timeToSeconds (secondsToTimeStr q) = Except.ok (JSNum.num q)) :=
  ⟨by decide, c1_parse_format_parse_roundtrip 0 1 2 345 (by decide) (by decide) (by decide)⟩

/-- C1 (counterexample): under the binary64 arithmetic of the source, the
valid timestamp 00:00:01,005 parses to the double 1131529406376837/2^50
(about 1.00499999999999989, since 5/1000 is not representable);
`secondsToTimeStr` formats this value as 00:00:01,004 (the exact fmod by 1
is about 0.00499999999999989, and multiplying by 1000 and flooring gives 4),
and re-parsing that text yields a different double, so
parse-format-parse differs from parse at this input and the claimed
round-trip equality fails on the program. -/
theorem c1_roundtrip_counterexample :
    timeToSecondsF "00:00:01,005" =
      Except.ok (JSNum.num (1131529406376837 / 1125899906842624)) ∧
    secondsToTimeStrF (1131529406376837 / 1125899906842624) = "00:00:01,004" ∧
    timeToSecondsF "00:00:01,004" =
      Except.ok (JSNum.num (2260807012939989 / 2251799813685248)) ∧
    (2260807012939989 / 2251799813685248 : ℚ) ≠
      1131529406376837 / 1125899906842624 := by
  -- the seven nontrivial binary64 roundings along the trace
  have hr200 : roundDouble (1/200 : ℚ) = 5764607523034235/1152921504606846976 := by
    have hm : rndHalfEven ((1/200 : ℚ) * (2:ℚ)^((52:ℤ) - (-8:ℤ))) = 5764607523034235 := by
      rw [show (1/200 : ℚ) * (2:ℚ)^((52:ℤ) - (-8:ℤ)) = 144115188075855872/25 by norm_num]
      exact (rndHalfEven_eq_of_half_lt _ 5764607523034234 (by norm_num) (by norm_num)).trans
        (by norm_num)
    rw [roundDouble_eval (1/200 : ℚ) (-8) 5764607523034235 (by norm_num) (by norm_num) hm]
    norm_num
  have hrq1sum : roundDouble (1158686112129881211/1152921504606846976 : ℚ) =
      1131529406376837/1125899906842624 := by
    have hm : rndHalfEven ((1158686112129881211/1152921504606846976 : ℚ) *
        (2:ℚ)^((52:ℤ) - (0:ℤ))) = 4526117625507348 := by
      rw [show (1158686112129881211/1152921504606846976 : ℚ) * (2:ℚ)^((52:ℤ) - (0:ℤ)) =
        1158686112129881211/256 by norm_num]
      exact rndHalfEven_eq_of_lt_half _ 4526117625507348 (by norm_num) (by norm_num)
    rw [roundDouble_eval (1158686112129881211/1152921504606846976 : ℚ) 0 4526117625507348
      (by norm_num) (by norm_num) hm]
    norm_num
  have hr3600div : roundDouble (377176468792279/1351079888211148800 : ℚ) =
      5149716053910583/18446744073709551616 := by
    have hm : rndHalfEven ((377176468792279/1351079888211148800 : ℚ) *
        (2:ℚ)^((52:ℤ) - (-12:ℤ))) = 5149716053910583 := by
      rw [show (377176468792279/1351079888211148800 : ℚ) * (2:ℚ)^((52:ℤ) - (-12:ℤ)) =
        386228704043293696/75 by norm_num]
      exact (rndHalfEven_eq_of_half_lt _ 5149716053910582 (by norm_num) (by norm_num)).trans
        (by norm_num)
    rw [roundDouble_eval (377176468792279/1351079888211148800 : ℚ) (-12) 5149716053910583
      (by norm_num) (by norm_num) hm]
    norm_num
  have hr60div : roundDouble (377176468792279/22517998136852480 : ℚ) =
      4827858800541171/288230376151711744 := by
    have hm : rndHalfEven ((377176468792279/22517998136852480 : ℚ) *
        (2:ℚ)^((52:ℤ) - (-6:ℤ))) = 4827858800541171 := by
      rw [show (377176468792279/22517998136852480 : ℚ) * (2:ℚ)^((52:ℤ) - (-6:ℤ)) =
        24139294002705856/5 by norm_num]
      exact rndHalfEven_eq_of_lt_half _ 4827858800541171 (by norm_num) (by norm_num)
    rw [roundDouble_eval (377176468792279/22517998136852480 : ℚ) (-6) 4827858800541171
      (by norm_num) (by norm_num) hm]
    norm_num
  have hrmul1000 : roundDouble (703687441776625/140737488355328 : ℚ) =
      703687441776625/140737488355328 := by
    have hm : rndHalfEven ((703687441776625/140737488355328 : ℚ) *
        (2:ℚ)^((52:ℤ) - (2:ℤ))) = 5629499534213000 := by
      rw [show (703687441776625/140737488355328 : ℚ) * (2:ℚ)^((52:ℤ) - (2:ℤ)) =
        5629499534213000 by norm_num]
      exact rndHalfEven_eq_of_lt_half _ 5629499534213000 (by norm_num) (by norm_num)
    rw [roundDouble_eval (703687441776625/140737488355328 : ℚ) 2 5629499534213000
      (by norm_num) (by norm_num) hm]
    norm_num
  have hr250 : roundDouble (1/250 : ℚ) = 1152921504606847/288230376151711744 := by
    have hm : rndHalfEven ((1/250 : ℚ) * (2:ℚ)^((52:ℤ) - (-8:ℤ))) = 4611686018427388 := by
      rw [show (1/250 : ℚ) * (2:ℚ)^((52:ℤ) - (-8:ℤ)) = 576460752303423488/125 by norm_num]
      exact (rndHalfEven_eq_of_half_lt _ 4611686018427387 (by norm_num) (by norm_num)).trans
        (by norm_num)
    rw [roundDouble_eval (1/250 : ℚ) (-8) 4611686018427388 (by norm_num) (by norm_num) hm]
    norm_num
  have hrq2sum : roundDouble (289383297656318591/288230376151711744 : ℚ) =
      2260807012939989/2251799813685248 := by
    have hm : rndHalfEven ((289383297656318591/288230376151711744 : ℚ) *
        (2:ℚ)^((52:ℤ) - (0:ℤ))) = 4521614025879978 := by
      rw [show (289383297656318591/288230376151711744 : ℚ) * (2:ℚ)^((52:ℤ) - (0:ℤ)) =
        289383297656318591/64 by norm_num]
      exact (rndHalfEven_eq_of_half_lt _ 4521614025879977 (by norm_num) (by norm_num)).trans
        (by norm_num)
    rw [roundDouble_eval (289383297656318591/288230376151711744 : ℚ) 0 4521614025879978
      (by norm_num) (by norm_num) hm]
    norm_num
  -- scalar float facts built from the roundings
  have hround1 : roundDouble (1 : ℚ) = 1 := by
    have hm : rndHalfEven ((1 : ℚ) * (2:ℚ)^((52:ℤ) - (0:ℤ))) = 4503599627370496 := by
      rw [show (1 : ℚ) * (2:ℚ)^((52:ℤ) - (0:ℤ)) = 4503599627370496 by norm_num]
      exact rndHalfEven_eq_of_lt_half _ 4503599627370496 (by norm_num) (by norm_num)
    rw [roundDouble_eval (1 : ℚ) 0 4503599627370496 (by norm_num) (by norm_num) hm]
    norm_num
  have hmul0a : fmul 0 3600 = 0 := by simp [fmul, roundDouble]
  have hmul0b : fmul 0 60 = 0 := by simp [fmul, roundDouble]
  have hadd00 : fadd 0 0 = 0 := by simp [fadd, roundDouble]
  have hadd01 : fadd 0 1 = 1 := by
    rw [fadd, show (0:ℚ) + 1 = 1 by norm_num, hround1]
  have hd005 : fdiv 5 1000 = 5764607523034235/1152921504606846976 := by
    rw [fdiv, show (5:ℚ)/1000 = 1/200 by norm_num, hr200]
  have hq1 : fadd 1 (5764607523034235/1152921504606846976) =
      1131529406376837/1125899906842624 := by
    rw [fadd, show (1:ℚ) + 5764607523034235/1152921504606846976 =
      1158686112129881211/1152921504606846976 by norm_num, hrq1sum]
  have hd004 : fdiv 4 1000 = 1152921504606847/288230376151711744 := by
    rw [fdiv, show (4:ℚ)/1000 = 1/250 by norm_num, hr250]
  have hq2 : fadd 1 (1152921504606847/288230376151711744) =
      2260807012939989/2251799813685248 := by
    rw [fadd, show (1:ℚ) + 1152921504606847/288230376151711744 =
      289383297656318591/288230376151711744 by norm_num, hrq2sum]
  -- constructor-shape rules for the JSNum float operations
  have naddF : ∀ a b : ℚ, JSNum.addF (JSNum.num a) (JSNum.num b) = JSNum.num (fadd a b) :=
    fun a b => rfl
  have nmulF : ∀ a b : ℚ, JSNum.mulF (JSNum.num a) (JSNum.num b) = JSNum.num (fmul a b) :=
    fun a b => rfl
  have ndivF : ∀ a : ℚ, JSNum.divF (JSNum.num a) (JSNum.num 1000) = JSNum.num (fdiv a 1000) := by
    intro a
    simp only [JSNum.divF]
    rw [if_neg (by norm_num : ¬((1000:ℚ) = 0))]
  -- the parsed digit fields
  have h00 : jsParseIntUndef (some "00") = JSNum.num 0 := by decide
  have h01 : jsParseIntUndef (some "01") = JSNum.num 1 := by decide
  have h005 : jsParseIntUndef (some "005") = JSNum.num 5 := by decide
  have h004 : jsParseIntUndef (some "004") = JSNum.num 4 := by decide
  -- parse of "00:00:01,005", reduced to the float-arithmetic skeleton
  have step1 : timeToSecondsF "00:00:01,005" =
      Except.ok (JSNum.addF (JSNum.addF (JSNum.addF
        (JSNum.mulF (jsParseIntUndef (some "00")) (JSNum.num 3600))
        (JSNum.mulF (jsParseIntUndef (some "00")) (JSNum.num 60)))
        (jsParseIntUndef (some "01")))
        (JSNum.divF (jsParseIntUndef (some "005")) (JSNum.num 1000))) := rfl
  have step2 : timeToSecondsF "00:00:01,004" =
      Except.ok (JSNum.addF (JSNum.addF (JSNum.addF
        (JSNum.mulF (jsParseIntUndef (some "00")) (JSNum.num 3600))
        (JSNum.mulF (jsParseIntUndef (some "00")) (JSNum.num 60)))
        (jsParseIntUndef (some "01")))
        (JSNum.divF (jsParseIntUndef (some "004")) (JSNum.num 1000))) := rfl
  refine ⟨?_, ?_, ?_, by norm_num⟩
  · rw [step1, h00, h01, h005, nmulF 0 3600, nmulF 0 60, hmul0a, hmul0b,
      naddF 0 0, hadd00, naddF 0 1, hadd01, ndivF 5, hd005,
      naddF 1 (5764607523034235/1152921504606846976), hq1]
  · -- the four formatted components of 1131529406376837/2^50
    have htr3600 : jsTrunc ((1131529406376837/1125899906842624 : ℚ) / 3600) = 0 := by
      rw [jsTrunc, if_pos (by norm_num : (0:ℚ) ≤ (1131529406376837/1125899906842624 : ℚ) / 3600),
        Int.floor_eq_iff]
      norm_num
    have htr60 : jsTrunc ((1131529406376837/1125899906842624 : ℚ) / 60) = 0 := by
      rw [jsTrunc, if_pos (by norm_num : (0:ℚ) ≤ (1131529406376837/1125899906842624 : ℚ) / 60),
        Int.floor_eq_iff]
      norm_num
    have htr1 : jsTrunc ((1131529406376837/1125899906842624 : ℚ) / 1) = 1 := by
      rw [jsTrunc, if_pos (by norm_num : (0:ℚ) ≤ (1131529406376837/1125899906842624 : ℚ) / 1),
        Int.floor_eq_iff]
      norm_num
    have hmod3600 : jsMod (1131529406376837/1125899906842624 : ℚ) 3600 =
        1131529406376837/1125899906842624 := by
      rw [jsMod, htr3600]
      norm_num
    have hmod60 : jsMod (1131529406376837/1125899906842624 : ℚ) 60 =
        1131529406376837/1125899906842624 := by
      rw [jsMod, htr60]
      norm_num
    have hmod1 : jsMod (1131529406376837/1125899906842624 : ℚ) 1 =
        5629499534213/1125899906842624 := by
      rw [jsMod, htr1]
      norm_num
    have hH : mathFloor (fdiv (1131529406376837/1125899906842624 : ℚ) 3600) = 0 := by
      rw [fdiv, show (1131529406376837/1125899906842624 : ℚ) / 3600 =
        377176468792279/1351079888211148800 by norm_num, hr3600div, mathFloor,
        Int.floor_eq_iff]
      norm_num
    have hM : mathFloor (fdiv (jsMod (1131529406376837/1125899906842624 : ℚ) 3600) 60) = 0 := by
      rw [hmod3600, fdiv, show (1131529406376837/1125899906842624 : ℚ) / 60 =
        377176468792279/22517998136852480 by norm_num, hr60div, mathFloor, Int.floor_eq_iff]
      norm_num
    have hS : mathFloor (jsMod (1131529406376837/1125899906842624 : ℚ) 60) = 1 := by
      rw [hmod60, mathFloor, Int.floor_eq_iff]
      norm_num
    have hMs : mathFloor (fmul (jsMod (1131529406376837/1125899906842624 : ℚ) 1) 1000) = 4 := by
      rw [hmod1, fmul, show (5629499534213/1125899906842624 : ℚ) * 1000 =
        703687441776625/140737488355328 by norm_num, hrmul1000, mathFloor, Int.floor_eq_iff]
      norm_num
    simp only [secondsToTimeStrF]
    rw [hH, hM, hS, hMs]
    decide
  · rw [step2, h00, h01, h004, nmulF 0 3600, nmulF 0 60, hmul0a, hmul0b,
      naddF 0 0, hadd00, naddF 0 1, hadd01, ndivF 4, hd004,
      naddF 1 (1152921504606847/288230376151711744), hq2]

/-- C4: parsing a text with fewer than 3 colon-separated fields throws
(fails); parsing one whose seconds field has no comma-separated fractional
part yields `NaN` (fails); parsing a well-formed text — four numeric fields
in `H:M:S,mmm` shape — yields
`hours*3600 + minutes*60 + seconds + milliseconds/1000`. -/
theorem c4_timeToSeconds_cases (t : String) :
    ((jsSplit ":" t).length < 3 → timeToSeconds t = Except.error ()) ∧
    (∀ p0 p1 p2 rest, jsSplit ":" t = p0 :: p1 :: p2 :: rest →
      (jsSplit "," p2).length = 1 → timeToSeconds t = Except.ok JSNum.nan) ∧
    (∀ A B C D : List Char,
      A ≠ [] ∧ (∀ c ∈ A, isDigitChar c = true) →
      B ≠ [] ∧ (∀ c ∈ B, isDigitChar c = true) →
      C ≠ [] ∧ (∀ c ∈ C, isDigitChar c = true) →
      D ≠ [] ∧ (∀ c ∈ D, isDigitChar c = true) →
      t = String.mk (A ++ ':' :: (B ++ ':' :: (C ++ ',' :: D))) →
      timeToSeconds t =
        Except.ok (JSNum.num ((natOfDigits A : ℚ) * 3600 + (natOfDigits B : ℚ) * 60 +
          (natOfDigits C : ℚ) + (natOfDigits D : ℚ) / 1000))) := by
  refine ⟨?_, ?_, ?_⟩
  · intro hlen
    simp only [timeToSeconds]
    rw [List.getElem?_eq_none (by omega)]
  · intro p0 p1 p2 rest hsplit hlen
    have hnone : (jsSplit "," p2)[1]? = none := List.getElem?_eq_none (by omega)
    simp only [timeToSeconds, hsplit, List.getElem?_cons_succ, List.getElem?_cons_zero, hnone,
      jsParseIntUndef, JSNum.nan_div, JSNum.add_nan]
  · intro A B C D hA hB hC hD ht
    rw [ht]
    exact timeToSeconds_digits A B C D hA hB hC hD

/-- Witness for C4 at three concrete inputs: a two-field text, a text with no
fractional part, and the well-formed text 1:2:3,4. -/
theorem c4_timeToSeconds_cases_witness :
    timeToSeconds "0:0" = Except.error () ∧
    timeToSeconds "00:00:01" = Except.ok JSNum.nan ∧
    timeToSeconds "1:2:3,4" =
      Except.ok (JSNum.num ((natOfDigits ['1'] : ℚ) * 3600 + (natOfDigits ['2'] : ℚ) * 60 +
        (natOfDigits ['3'] : ℚ) + (natOfDigits ['4'] : ℚ) / 1000)) :=
  ⟨(c4_timeToSeconds_cases "0:0").1 (by decide),
   (c4_timeToSeconds_cases "00:00:01").2.1 "00" "00" "01" [] (by decide) (by decide),
   (c4_timeToSeconds_cases "1:2:3,4").2.2 ['1'] ['2'] ['3'] ['4']
     (by decide) (by decide) (by decide) (by decide) (by decide)⟩

/-!  Sync Engine lemmas. -/

theorem tsValOpt_eq (o : Option String) :
    tsValOpt o =
      (match timeToSecondsOpt o with
       | Except.ok (JSNum.num q) => some q
       | _ => none) := by
  cases o <;> rfl

theorem tsVal_isSome_ne_error {s : String} (h : (tsVal s).isSome) :
    timeToSeconds s ≠ Except.error () := by
  intro he
  unfold tsVal at h
  rw [he] at h
  cases h

theorem tsValOpt_isSome_ne_error {o : Option String} (h : (tsValOpt o).isSome) :
    timeToSecondsOpt o ≠ Except.error () := by
  intro he
  rw [tsValOpt_eq, he] at h
  cases h

theorem subMatches_eq (t : ℚ) (sub : Subtitle)
    (h1 : timeToSeconds sub.startTime ≠ Except.error ())
    (h2 : timeToSecondsOpt sub.endTime ≠ Except.error ()) :
    subMatches t sub = Except.ok (specContainsB t sub) := by
  unfold subMatches specContainsB
  rw [tsValOpt_eq]
  unfold tsVal
  cases hs : timeToSeconds sub.startTime with
  | error e => cases e; exact absurd hs h1
  | ok v =>
    cases he : timeToSecondsOpt sub.endTime with
    | error e => cases e; exact absurd he h2
    | ok w =>
      cases v with
      | nan => cases w <;> rfl
      | num s =>
        cases w with
        | nan =>
          by_cases hle : s ≤ t
          · simp [jsGe, jsLe, hle]
          · simp [jsGe, jsLe, hle]
        | num e2 =>
          by_cases hle : s ≤ t
          · simp [jsGe, jsLe, hle]
          · simp [jsGe, jsLe, hle]

theorem getCurrentSubtitles_eq_filter (subs : List Subtitle) (t : ℚ)
    (h : ∀ sub ∈ subs, timeToSeconds sub.startTime ≠ Except.error () ∧
      timeToSecondsOpt sub.endTime ≠ Except.error ()) :
    getCurrentSubtitles subs t = Except.ok (subs.filter (specContainsB t)) := by
  induction subs with
  | nil => rfl
  | cons sub rest ih =>
    have hsub := h sub (List.mem_cons_self sub rest)
    unfold getCurrentSubtitles
    rw [subMatches_eq t sub hsub.1 hsub.2, ih (fun x hx => h x (List.mem_cons_of_mem sub hx))]
    by_cases hc : specContainsB t sub
    · rw [hc, List.filter_cons_of_pos hc]
      rfl
    · have hcf : specContainsB t sub = false := by revert hc; cases specContainsB t sub <;> simp
      rw [hcf, List.filter_cons_of_neg hc]
      rfl

theorem findIndexGo_eq (t : ℚ) (subs : List Subtitle) (i : ℤ)
    (h : ∀ sub ∈ subs, timeToSeconds sub.startTime ≠ Except.error () ∧
      timeToSecondsOpt sub.endTime ≠ Except.error ()) :
    findIndexGo t subs i =
      Except.ok (match subs.findIdx? (specContainsB t) with
        | some j => i + (j : ℤ)
        | none => -1) := by
  induction subs generalizing i with
  | nil => rfl
  | cons sub rest ih =>
    have hsub := h sub (List.mem_cons_self sub rest)
    unfold findIndexGo
    rw [subMatches_eq t sub hsub.1 hsub.2]
    by_cases hc : specContainsB t sub
    · rw [hc, List.findIdx?_cons, if_pos hc]
      show Except.ok i = Except.ok (i + ((0 : ℕ) : ℤ))
      norm_num
    · have hcf : specContainsB t sub = false := by revert hc; cases specContainsB t sub <;> simp
      have hcons : (sub :: rest).findIdx? (specContainsB t) =
          (rest.findIdx? (specContainsB t)).map (fun k => k + 1) := by
        rw [List.findIdx?_cons, if_neg hc, List.findIdx?_succ]
      rw [hcf, ih (i + 1) (fun x hx => h x (List.mem_cons_of_mem sub hx)), hcons]
      cases hrest : rest.findIdx? (specContainsB t) with
      | none => rfl
      | some j =>
        show Except.ok (i + 1 + (j : ℤ)) = Except.ok (i + ((j + 1 : ℕ) : ℤ))
        congr 1
        push_cast
        ring

theorem specStartedB_eq_jsLe (t : ℚ) (sub : Subtitle) (v : JSNum)
    (hs : timeToSeconds sub.startTime = Except.ok v) :
    specStartedB t sub = jsLe v (JSNum.num t) := by
  unfold specStartedB tsVal
  rw [hs]
  cases v <;> simp [jsLe]

theorem scanPrev_eq (t : ℚ) (l : List (ℕ × Subtitle))
    (h : ∀ p ∈ l, timeToSeconds p.2.startTime ≠ Except.error ()) :
    scanPrev t l =
      Except.ok (match l.find? (fun p => specStartedB t p.2) with
        | some p => (p.1 : ℤ)
        | none => -1) := by
  induction l with
  | nil => rfl
  | cons p rest ih =>
    obtain ⟨i, sub⟩ := p
    unfold scanPrev
    cases hs : timeToSeconds sub.startTime with
    | error e =>
      cases e
      exact absurd hs (h (i, sub) (List.mem_cons_self (i, sub) rest))
    | ok v =>
      have hst : specStartedB t sub = jsLe v (JSNum.num t) := specStartedB_eq_jsLe t sub v hs
      show (if jsLe v (JSNum.num t) = true then Except.ok (i : ℤ) else scanPrev t rest) =
        Except.ok (match List.find? (fun p => specStartedB t p.2) ((i, sub) :: rest) with
          | some p => (p.1 : ℤ)
          | none => -1)
      by_cases hb : jsLe v (JSNum.num t)
      · rw [if_pos hb,
          @List.find?_cons_of_pos _ (fun q => specStartedB t q.2) (i, sub) rest
            (show specStartedB t sub = true by rw [hst]; exact hb)]
      · rw [if_neg hb, ih (fun x hx => h x (List.mem_cons_of_mem (i, sub) hx)),
          @List.find?_cons_of_neg _ (fun q => specStartedB t q.2) (i, sub) rest
            (show ¬specStartedB t sub = true by rw [hst]; exact hb)]

theorem find?_eq_head?_filter {α : Type} (p : α → Bool) (l : List α) :
    l.find? p = (l.filter p).head? := by
  induction l with
  | nil => rfl
  | cons a rest ih =>
    by_cases hp : p a
    · rw [List.find?_cons_of_pos _ hp, List.filter_cons_of_pos hp]
      rfl
    · rw [List.find?_cons_of_neg _ hp, List.filter_cons_of_neg hp, ih]

theorem last_started_eq (subs : List Subtitle) (t : ℚ) :
    (subs.enum.filter (fun p => specStartedB t p.2)).getLast? =
      subs.enum.reverse.find? (fun p => specStartedB t p.2) := by
  rw [List.getLast?_eq_head?_reverse, ← List.filter_reverse, ← find?_eq_head?_filter]

theorem snd_mem_of_mem_enumFrom {α : Type} (l : List α) (n : ℕ) (p : ℕ × α)
    (hp : p ∈ l.enumFrom n) : p.2 ∈ l := by
  induction l generalizing n with
  | nil => cases hp
  | cons a rest ih =>
    rw [List.enumFrom_cons] at hp
    rcases List.mem_cons.mp hp with h | h
    · rw [h]; exact List.mem_cons_self a rest
    · exact List.mem_cons_of_mem a (ih (n + 1) h)

/-- C8: for every playback time, `getCurrentSubtitles` (activeEntries) returns
exactly the entries whose `[start, end]` interval contains the time, inclusive
on both ends, preserving display order; when intervals overlap, all containing
entries are returned. -/
theorem c8_activeEntries_eq_filter (subs : List Subtitle) (t : ℚ)
    (h : ∀ sub ∈ subs, (tsVal sub.startTime).isSome ∧ (tsValOpt sub.endTime).isSome) :
    getCurrentSubtitles subs t = Except.ok (subs.filter (specContainsB t)) :=
  getCurrentSubtitles_eq_filter subs t (fun sub hs =>
    ⟨tsVal_isSome_ne_error (h sub hs).1, tsValOpt_isSome_ne_error (h sub hs).2⟩)

/-- Witness for C8: the spec's overlap example A = [1,3], B = [2,4] at time
2.5 returns both entries, in original order. -/
theorem c8_activeEntries_eq_filter_witness :
    getCurrentSubtitles
      [⟨JSNum.num 1, "00:00:01,000", some "00:00:03,000", "A"⟩,
       ⟨JSNum.num 2, "00:00:02,000", some "00:00:04,000", "B"⟩] (5 / 2) =
      Except.ok
        [⟨JSNum.num 1, "00:00:01,000", some "00:00:03,000", "A"⟩,
         ⟨JSNum.num 2, "00:00:02,000", some "00:00:04,000", "B"⟩] := by
  have e1 : timeToSeconds "00:00:01,000" = Except.ok (JSNum.num 1) := by
    rw [show ("00:00:01,000" : String) = mkTimeText 0 0 1 0 by decide, timeToSeconds_mkTimeText]
    norm_num
  have e2 : timeToSeconds "00:00:02,000" = Except.ok (JSNum.num 2) := by
    rw [show ("00:00:02,000" : String) = mkTimeText 0 0 2 0 by decide, timeToSeconds_mkTimeText]
    norm_num
  have e3 : timeToSeconds "00:00:03,000" = Except.ok (JSNum.num 3) := by
    rw [show ("00:00:03,000" : String) = mkTimeText 0 0 3 0 by decide, timeToSeconds_mkTimeText]
    norm_num
  have e4 : timeToSeconds "00:00:04,000" = Except.ok (JSNum.num 4) := by
    rw [show ("00:00:04,000" : String) = mkTimeText 0 0 4 0 by decide, timeToSeconds_mkTimeText]
    norm_num
  have hA : specContainsB (5 / 2) ⟨JSNum.num 1, "00:00:01,000", some "00:00:03,000", "A"⟩ = true := by
    simp only [specContainsB, tsValOpt, tsVal, e1, e3, Bool.and_eq_true, decide_eq_true_eq]
    norm_num
  have hB : specContainsB (5 / 2) ⟨JSNum.num 2, "00:00:02,000", some "00:00:04,000", "B"⟩ = true := by
    simp only [specContainsB, tsValOpt, tsVal, e2, e4, Bool.and_eq_true, decide_eq_true_eq]
    norm_num
  rw [c8_activeEntries_eq_filter _ _ ?_]
  · rw [List.filter_cons_of_pos hA, List.filter_cons_of_pos hB]
    rfl
  · intro sub hs
    rcases List.mem_cons.mp hs with h' | h'
    · rw [h']
      exact ⟨by simp [tsVal, e1], by simp [tsValOpt, tsVal, e3]⟩
    · rcases List.mem_cons.mp h' with h2 | h2
      · rw [h2]
        exact ⟨by simp [tsVal, e2], by simp [tsValOpt, tsVal, e4]⟩
      · exact absurd h2 (List.not_mem_nil sub)

/-- C3 (counterexample to the claim as stated): an entry whose `startTime` is
the malformed timestamp 0:0 (fewer than 3 colon-separated fields) makes the
active-entry computation throw instead of treating the entry as never
matching. -/
theorem c3_counterexample :
    getCurrentSubtitles [⟨JSNum.num 1, "0:0", some "00:00:02,000", "x"⟩] 0 =
      Except.error () := by decide

/-- C3 (amended): when every entry's timestamps at least survive the split
destructuring (no thrown `TypeError`), the active-entry computation completes
without raising a fault for every input time, and any entry whose start or
end does not parse to a finite number (the `NaN` cases) never matches. -/
theorem c3_amended_nan_never_matches (subs : List Subtitle) (t : ℚ)
    (h : ∀ sub ∈ subs, timeToSeconds sub.startTime ≠ Except.error () ∧
      timeToSecondsOpt sub.endTime ≠ Except.error ()) :
    ∃ l, getCurrentSubtitles subs t = Except.ok l ∧
      ∀ sub ∈ subs, tsVal sub.startTime = none ∨ tsValOpt sub.endTime = none → sub ∉ l := by
  refine ⟨subs.filter (specContainsB t), getCurrentSubtitles_eq_filter subs t h, ?_⟩
  intro sub _hs hnan hmem
  have hc : specContainsB t sub = true := List.of_mem_filter hmem
  unfold specContainsB at hc
  rcases hnan with hn | hn
  · rw [hn] at hc
    simp at hc
  · rw [hn] at hc
    cases htv : tsVal sub.startTime <;> rw [htv] at hc <;> simp at hc

/-- Witness for C3 (amended) at a one-entry list whose timestamps are
malformed but split-safe (they parse to `NaN`). -/
theorem c3_amended_nan_never_matches_witness :
    ∃ l, getCurrentSubtitles [⟨JSNum.num 1, "aa:bb:cc", some "dd:ee:ff", "x"⟩] 0 =
        Except.ok l ∧
      ∀ sub ∈ [(⟨JSNum.num 1, "aa:bb:cc", some "dd:ee:ff", "x"⟩ : Subtitle)],
        tsVal sub.startTime = none ∨ tsValOpt sub.endTime = none → sub ∉ l :=
  c3_amended_nan_never_matches [⟨JSNum.num 1, "aa:bb:cc", some "dd:ee:ff", "x"⟩] 0 (by decide)

/-- C2: `getCurrentSubtitleIndex` (activeIndex) returns the index of the
first entry whose `[start, end]` interval contains the time; if none
contains it, the index of the last entry (scanning backward) whose start is
`<= time`; if no entry has started, `-1`. -/
theorem c2_activeIndex_spec (subs : List Subtitle) (t : ℚ)
    (h : ∀ sub ∈ subs, (tsVal sub.startTime).isSome ∧ (tsValOpt sub.endTime).isSome) :
    getCurrentSubtitleIndex subs t = Except.ok (activeIndexSpec subs t) := by
  have hne : ∀ sub ∈ subs, timeToSeconds sub.startTime ≠ Except.error () ∧
      timeToSecondsOpt sub.endTime ≠ Except.error () := fun sub hs =>
    ⟨tsVal_isSome_ne_error (h sub hs).1, tsValOpt_isSome_ne_error (h sub hs).2⟩
  unfold getCurrentSubtitleIndex activeIndexSpec
  rw [findIndexGo_eq t subs 0 hne]
  cases hidx : subs.findIdx? (specContainsB t) with
  | some j =>
    show (if (0 + (j : ℤ)) ≠ -1 then Except.ok (0 + (j : ℤ))
      else scanPrev t subs.enum.reverse) = Except.ok ((j : ℕ) : ℤ)
    rw [if_pos (by omega : (0 : ℤ) + (j : ℤ) ≠ -1), zero_add]
  | none =>
    show (if (-1 : ℤ) ≠ -1 then Except.ok (-1 : ℤ) else scanPrev t subs.enum.reverse) = _
    rw [if_neg (fun hh => hh rfl),
      scanPrev_eq t subs.enum.reverse (fun p hp =>
        (hne p.2 (snd_mem_of_mem_enumFrom subs 0 p (List.mem_reverse.mp hp))).1),
      last_started_eq]

/-- Witness for C2 at the spec's end-to-end example: two entries [1,3] and
[4,6]; at time 3.5 no entry contains the time and the fallback returns the
nearest preceding entry, index 0. -/
theorem c2_activeIndex_spec_witness :
    getCurrentSubtitleIndex
      [⟨JSNum.num 1, "00:00:01,000", some "00:00:03,000", "Hello"⟩,
       ⟨JSNum.num 2, "00:00:04,000", some "00:00:06,000", "World"⟩] (7 / 2) =
      Except.ok 0 := by
  have e1 : timeToSeconds "00:00:01,000" = Except.ok (JSNum.num 1) := by
    rw [show ("00:00:01,000" : String) = mkTimeText 0 0 1 0 by decide, timeToSeconds_mkTimeText]
    norm_num
  have e3 : timeToSeconds "00:00:03,000" = Except.ok (JSNum.num 3) := by
    rw [show ("00:00:03,000" : String) = mkTimeText 0 0 3 0 by decide, timeToSeconds_mkTimeText]
    norm_num
  have e4 : timeToSeconds "00:00:04,000" = Except.ok (JSNum.num 4) := by
    rw [show ("00:00:04,000" : String) = mkTimeText 0 0 4 0 by decide, timeToSeconds_mkTimeText]
    norm_num
  have e6 : timeToSeconds "00:00:06,000" = Except.ok (JSNum.num 6) := by
    rw [show ("00:00:06,000" : String) = mkTimeText 0 0 6 0 by decide, timeToSeconds_mkTimeText]
    norm_num
  have hc1 : specContainsB (7 / 2)
      ⟨JSNum.num 1, "00:00:01,000", some "00:00:03,000", "Hello"⟩ = false := by
    simp only [specContainsB, tsValOpt, tsVal, e1, e3, Bool.and_eq_false_iff,
      decide_eq_false_iff_not]
    right
    norm_num
  have hc2 : specContainsB (7 / 2)
      ⟨JSNum.num 2, "00:00:04,000", some "00:00:06,000", "World"⟩ = false := by
    simp only [specContainsB, tsValOpt, tsVal, e4, e6, Bool.and_eq_false_iff,
      decide_eq_false_iff_not]
    left
    norm_num
  have hs1 : specStartedB (7 / 2)
      ⟨JSNum.num 1, "00:00:01,000", some "00:00:03,000", "Hello"⟩ = true := by
    simp only [specStartedB, tsVal, e1, decide_eq_true_eq]
    norm_num
  have hs2 : specStartedB (7 / 2)
      ⟨JSNum.num 2, "00:00:04,000", some "00:00:06,000", "World"⟩ = false := by
    simp only [specStartedB, tsVal, e4, decide_eq_false_iff_not]
    norm_num
  rw [c2_activeIndex_spec _ _ ?_]
  · simp [activeIndexSpec, List.findIdx?_cons, List.enum, List.enumFrom, hc1, hc2, hs1, hs2]
  · intro sub hs
    rcases List.mem_cons.mp hs with h' | h'
    · rw [h']
      exact ⟨by simp [tsVal, e1], by simp [tsValOpt, tsVal, e3]⟩
    · rcases List.mem_cons.mp h' with h2 | h2
      · rw [h2]
        exact ⟨by simp [tsVal, e4], by simp [tsValOpt, tsVal, e6]⟩
      · exact absurd h2 (List.not_mem_nil sub)

/-!  Transcript Parser lemmas. -/

theorem parseSRT_eq_filter_map (srt : String) :
    parseSRT srt =
      ((jsSplit "\n\n" (jsTrim srt)).filter
        (fun b => 3 ≤ (jsSplit "\n" b).length)).map blockEntry := by
  unfold parseSRT
  generalize jsSplit "\n\n" (jsTrim srt) = blocks
  suffices h : ∀ (bs : List String) (acc : List Subtitle),
      bs.foldl (fun subtitles block =>
        let lines := jsSplit "\n" block
        if 3 ≤ lines.length then
          let times := jsSplit " --> " ((lines[1]?).getD "")
          subtitles ++ [{ id := jsParseIntUndef lines[0]?,
                          startTime := (times[0]?).getD "",
                          endTime := times[1]?,
                          text := String.intercalate "\n" (lines.drop 2) }]
        else subtitles) acc =
      acc ++ (bs.filter (fun b => 3 ≤ (jsSplit "\n" b).length)).map blockEntry by
    rw [h blocks []]
    rfl
  intro bs
  induction bs with
  | nil => intro acc; simp
  | cons b rest ih =>
    intro acc
    rw [List.foldl_cons, ih]
    by_cases hb : 3 ≤ (jsSplit "\n" b).length
    · rw [@List.filter_cons_of_pos _ (fun x => decide (3 ≤ (jsSplit "\n" x).length)) b rest
        (by simpa using hb)]
      show (if 3 ≤ (jsSplit "\n" b).length then acc ++ [blockEntry b] else acc) ++ _ = _
      rw [if_pos hb, List.append_assoc, List.singleton_append, List.map_cons]
    · rw [@List.filter_cons_of_neg _ (fun x => decide (3 ≤ (jsSplit "\n" x).length)) b rest
        (by simpa using hb)]
      show (if 3 ≤ (jsSplit "\n" b).length then acc ++ [blockEntry b] else acc) ++ _ = _
      rw [if_neg hb]

/-- C5: `parseSRT` splits the trimmed input on blank-line boundaries and
returns exactly one entry per block having at least 3 lines, in source block
order, regardless of id values; blocks with fewer than 3 lines are silently
dropped.  Each accepted entry takes line 1 parsed as integer for the id,
line 2 split on the arrow for startTime/endTime, and the remaining lines
joined by newline for the text (the content of `blockEntry`). -/
theorem c5_parseSRT_blocks (srt : String) :
    parseSRT srt =
      ((jsSplit "\n\n" (jsTrim srt)).filter
        (fun b => 3 ≤ (jsSplit "\n" b).length)).map blockEntry ∧
    (parseSRT srt).length =
      ((jsSplit "\n\n" (jsTrim srt)).filter
        (fun b => 3 ≤ (jsSplit "\n" b).length)).length := by
  refine ⟨parseSRT_eq_filter_map srt, ?_⟩
  rw [parseSRT_eq_filter_map srt, List.length_map]

/-!  Persistence lemmas. -/

theorem assocGet_assocPut {α : Type} (rows : List (String × α)) (k : String) (v : α) :
    assocGet (assocPut rows k v) k = some v := by
  induction rows with
  | nil => simp [assocPut, assocGet]
  | cons p rest ih =>
    unfold assocPut at ih ⊢
    by_cases hp : p.1 = k
    · rw [if_pos (by simp [hp])]
      simp [assocGet, hp]
    · by_cases hany : rest.any (fun q => q.1 = k)
      · rw [if_pos (by simp [List.any_cons, hp, hany])]
        rw [if_pos hany] at ih
        simp only [List.map_cons, if_neg hp]
        simp only [assocGet]
        rw [if_neg hp]
        exact ih
      · rw [if_neg (by simp [List.any_cons, hp, hany])]
        rw [if_neg hany] at ih
        rw [List.cons_append]
        simp only [assocGet]
        rw [if_neg hp]
        exact ih

theorem assocGet_assocDelete {α : Type} (rows : List (String × α)) (k : String) :
    assocGet (assocDelete rows k) k = none := by
  induction rows with
  | nil => rfl
  | cons p rest ih =>
    unfold assocDelete at ih ⊢
    by_cases hp : p.1 = k
    · rw [List.filter_cons_of_neg (by simp [hp])]
      exact ih
    · rw [List.filter_cons_of_pos (by simp [hp])]
      simp only [assocGet]
      rw [if_neg hp]
      exact ih

/-- C6 (counterexample to the claim as stated): with two entries sharing the
same id, saving an edit replaces BOTH entries, not exactly one. -/
theorem c6_counterexample :
    (handleSaveSubtitle 0 ⟨JSNum.num 1, "s", some "e", "c"⟩
        ⟨"v", [⟨JSNum.num 1, "s", some "e", "a"⟩, ⟨JSNum.num 1, "s", some "e", "b"⟩], []⟩).subtitles =
      [⟨JSNum.num 1, "s", some "e", "c"⟩, ⟨JSNum.num 1, "s", some "e", "c"⟩] ∧
    ((handleSaveSubtitle 0 ⟨JSNum.num 1, "s", some "e", "c"⟩
        ⟨"v", [⟨JSNum.num 1, "s", some "e", "a"⟩, ⟨JSNum.num 1, "s", some "e", "b"⟩], []⟩).subtitles.zip
      [(⟨JSNum.num 1, "s", some "e", "a"⟩ : Subtitle), ⟨JSNum.num 1, "s", some "e", "b"⟩]).countP
        (fun p => decide (p.1 ≠ p.2)) = 2 := by decide

/-- C6 (amended): saving an edited entry replaces exactly those entries whose
id strictly equals the edited entry's id (so exactly one when ids are unique),
leaves every non-matching entry unchanged in place, and re-persists the whole
updated set under the current video key. -/
theorem c6_amended_save (now : ℕ) (editedSubtitle : Subtitle) (st : AppSubState)
    (hkey : st.currentVideoKey ≠ "") :
    (handleSaveSubtitle now editedSubtitle st).subtitles =
      st.subtitles.map (fun sub =>
        if jsStrictEqNum sub.id editedSubtitle.id then editedSubtitle else sub) ∧
    loadSubtitles st.currentVideoKey (handleSaveSubtitle now editedSubtitle st).store =
      some ((handleSaveSubtitle now editedSubtitle st).subtitles) ∧
    (∀ (i : ℕ) (sub : Subtitle), st.subtitles[i]? = some sub →
      jsStrictEqNum sub.id editedSubtitle.id = false →
      (handleSaveSubtitle now editedSubtitle st).subtitles[i]? = some sub) := by
  unfold handleSaveSubtitle
  rw [if_neg hkey]
  refine ⟨rfl, ?_, ?_⟩
  · unfold loadSubtitles saveSubtitles
    rw [assocGet_assocPut]
    rfl
  · intro i sub hget hne
    simp [List.getElem?_map, hget, hne]

/-- Witness for C6 (amended) at a concrete two-entry state with distinct ids:
only the matching entry is replaced and the set is re-persisted. -/
theorem c6_amended_save_witness :
    (handleSaveSubtitle 5 ⟨JSNum.num 2, "s2", some "e2", "new"⟩
        ⟨"v", [⟨JSNum.num 1, "s1", some "e1", "a"⟩, ⟨JSNum.num 2, "s2", some "e2", "b"⟩], []⟩).subtitles =
      [⟨JSNum.num 1, "s1", some "e1", "a"⟩, ⟨JSNum.num 2, "s2", some "e2", "b"⟩].map (fun sub =>
        if jsStrictEqNum sub.id (JSNum.num 2) then ⟨JSNum.num 2, "s2", some "e2", "new"⟩ else sub) ∧
    loadSubtitles "v" (handleSaveSubtitle 5 ⟨JSNum.num 2, "s2", some "e2", "new"⟩
        ⟨"v", [⟨JSNum.num 1, "s1", some "e1", "a"⟩, ⟨JSNum.num 2, "s2", some "e2", "b"⟩], []⟩).store =
      some ((handleSaveSubtitle 5 ⟨JSNum.num 2, "s2", some "e2", "new"⟩
        ⟨"v", [⟨JSNum.num 1, "s1", some "e1", "a"⟩, ⟨JSNum.num 2, "s2", some "e2", "b"⟩], []⟩).subtitles) ∧
    (∀ (i : ℕ) (sub : Subtitle),
      ([⟨JSNum.num 1, "s1", some "e1", "a"⟩,
        (⟨JSNum.num 2, "s2", some "e2", "b"⟩ : Subtitle)])[i]? = some sub →
      jsStrictEqNum sub.id (JSNum.num 2) = false →
      (handleSaveSubtitle 5 ⟨JSNum.num 2, "s2", some "e2", "new"⟩
        ⟨"v", [⟨JSNum.num 1, "s1", some "e1", "a"⟩, ⟨JSNum.num 2, "s2", some "e2", "b"⟩], []⟩).subtitles[i]? =
        some sub) :=
  c6_amended_save 5 ⟨JSNum.num 2, "s2", some "e2", "new"⟩
    ⟨"v", [⟨JSNum.num 1, "s1", some "e1", "a"⟩, ⟨JSNum.num 2, "s2", some "e2", "b"⟩], []⟩
    (by decide)

/-- C7: a successful `deleteVideo key` removes the key from the video listing
and makes the transcript absent; both deletions form one operation whose
partial failure (either underlying delete request failing) surfaces as a
single aggregate rejection; deleting an already-absent key succeeds (the
success case holds for every database state, present or absent). -/
theorem c7_deleteVideo_spec (db : DB) (key : String)
    (hinv : ∀ p ∈ db.videos, p.1 = p.2.name) :
    (∃ db2, deleteVideo true true key db = Except.ok db2 ∧
      (∀ item ∈ listVideos db2, item.key ≠ key) ∧
      loadSubtitles key db2.subtitles = none) ∧
    (∀ okVideo okSubs : Bool, okVideo = false ∨ okSubs = false →
      deleteVideo okVideo okSubs key db = Except.error ()) := by
  constructor
  · refine ⟨_, rfl, ?_, ?_⟩
    · intro item hitem
      simp only [listVideos, List.mem_map] at hitem
      obtain ⟨p, hp, hitem⟩ := hitem
      have hpne : ¬ p.1 = key := by simpa using List.of_mem_filter hp
      have hpv : p ∈ db.videos := List.mem_of_mem_filter hp
      rw [← hitem]
      show p.2.name ≠ key
      rw [← hinv p hpv]
      exact hpne
    · unfold loadSubtitles
      show (assocGet (assocDelete db.subtitles key) key).map _ = none
      rw [assocGet_assocDelete]
      rfl
  · intro okVideo okSubs hfail
    unfold deleteVideo
    rcases hfail with hf | hf <;> rw [hf] <;> simp

/-- Witness for C7 at a concrete one-video database. -/
theorem c7_deleteVideo_spec_witness :
    (∃ db2, deleteVideo true true "a.mp4"
        ⟨[("a.mp4", ⟨"blob", "a.mp4", 0, "video/mp4", 3⟩)],
         [("a.mp4", ⟨"a.mp4", [], 0⟩)]⟩ = Except.ok db2 ∧
      (∀ item ∈ listVideos db2, item.key ≠ "a.mp4") ∧
      loadSubtitles "a.mp4" db2.subtitles = none) ∧
    (∀ okVideo okSubs : Bool, okVideo = false ∨ okSubs = false →
      deleteVideo okVideo okSubs "a.mp4"
        ⟨[("a.mp4", ⟨"blob", "a.mp4", 0, "video/mp4", 3⟩)],
         [("a.mp4", ⟨"a.mp4", [], 0⟩)]⟩ = Except.error ()) :=
  c7_deleteVideo_spec
    ⟨[("a.mp4", ⟨"blob", "a.mp4", 0, "video/mp4", 3⟩)], [("a.mp4", ⟨"a.mp4", [], 0⟩)]⟩
    "a.mp4" (by decide)

/-!  Scroll Coordinator lemmas. -/

theorem scroll_suppressed_invariant (trace : List (ℕ × ScrollEvent)) :
    ∀ (s : ScrollState) (now : ℕ), 500 ≤ now →
    (1500 ≤ now ∨ (s.isUserScrolling = true ∧
      ∀ d, s.scrollTimeout = some d → 1500 ≤ d)) →
    validTraceB s now trace = true →
    ∀ τ ∈ invokedTimes s trace, 1500 ≤ τ := by
  induction trace with
  | nil =>
    intro s now _ _ _ τ hτ
    simp [invokedTimes] at hτ
  | cons te rest ih =>
    obtain ⟨t, e⟩ := te
    intro s now h500 hinv hvalid τ hτ
    unfold validTraceB at hvalid
    rw [Bool.and_eq_true, Bool.and_eq_true] at hvalid
    obtain ⟨⟨hle, hguard⟩, hrest⟩ := hvalid
    have hlet : now ≤ t := by simpa using hle
    simp only [invokedTimes, List.mem_append] at hτ
    rcases hτ with hτ | hτ
    · by_cases hinvoke : (scrollStep t e s).2 = true
      · rw [if_pos hinvoke] at hτ
        have hτt : τ = t := by simpa using hτ
        rcases hinv with h15 | ⟨hsup, _⟩
        · omega
        · exfalso
          cases e with
          | userScroll => simp [scrollStep] at hinvoke
          | timerFire => simp [scrollStep] at hinvoke
          | autoCheck a c p f =>
            simp [scrollStep, autoScrollInvoked, hsup] at hinvoke
      · rw [if_neg hinvoke] at hτ
        simp at hτ
    · refine ih (scrollStep t e s).1 t (by omega) ?_ hrest τ hτ
      cases e with
      | userScroll =>
        right
        refine ⟨rfl, fun d hd => ?_⟩
        simp only [scrollStep, handleScroll, Option.some.injEq] at hd
        omega
      | timerFire =>
        left
        rcases hinv with h15 | ⟨_, hdl⟩
        · omega
        · exact hdl t (by simpa using hguard)
      | autoCheck a c p f =>
        rcases hinv with h15 | hsup
        · left; omega
        · right; exact hsup

/-- C9: a user scroll sets the suppression flag and (re)starts the single
one-shot 1000 ms timer, discarding any pending deadline; the timer firing
clears the flag; `scrollIntoView` is invoked only when an active entry
exists, suppression is off and playback is playing; and after scroll events
at t = 0 ms and t = 500 ms, no valid continuation invokes auto-scroll before
t = 1500 ms. -/
theorem c9_scroll_coordinator :
    (∀ (now : ℕ) (s : ScrollState),
      (scrollStep now ScrollEvent.userScroll s).1.isUserScrolling = true ∧
      (scrollStep now ScrollEvent.userScroll s).1.scrollTimeout = some (now + 1000)) ∧
    (∀ (now : ℕ) (s : ScrollState),
      (scrollStep now ScrollEvent.timerFire s).1.isUserScrolling = false ∧
      (scrollStep now ScrollEvent.timerFire s).1.scrollTimeout = none) ∧
    (∀ (now : ℕ) (e : ScrollEvent) (s : ScrollState), (scrollStep now e s).2 = true →
      ∃ c f, e = ScrollEvent.autoCheck true c true f ∧ s.isUserScrolling = false) ∧
    (∀ trace : List (ℕ × ScrollEvent),
      validTraceB (scrollStep 500 ScrollEvent.userScroll
        (scrollStep 0 ScrollEvent.userScroll ⟨false, none⟩).1).1 500 trace = true →
      ∀ τ ∈ invokedTimes (scrollStep 500 ScrollEvent.userScroll
        (scrollStep 0 ScrollEvent.userScroll ⟨false, none⟩).1).1 trace, 1500 ≤ τ) := by
  refine ⟨fun now s => ⟨rfl, rfl⟩, fun now s => ⟨rfl, rfl⟩, ?_, ?_⟩
  · intro now e s hinvoke
    cases e with
    | userScroll => simp [scrollStep] at hinvoke
    | timerFire => simp [scrollStep] at hinvoke
    | autoCheck a c p f =>
      simp only [scrollStep, autoScrollInvoked, Bool.and_eq_true] at hinvoke
      obtain ⟨⟨⟨⟨ha, hsup⟩, hc⟩, hp⟩, hf⟩ := hinvoke
      refine ⟨c, f, by rw [ha, hp], ?_⟩
      simpa using hsup
  · intro trace hvalid
    apply scroll_suppressed_invariant trace _ 500 (by omega) ?_ hvalid
    right
    refine ⟨rfl, fun d hd => ?_⟩
    simp only [scrollStep, handleScroll, Option.some.injEq] at hd
    omega

/-- Witness for C9: the per-event clauses at concrete states, and a concrete
valid continuation after the 0 ms and 500 ms scrolls whose only auto-scroll
invocations happen from 1500 ms on. -/
theorem c9_scroll_coordinator_witness :
    ((scrollStep 0 ScrollEvent.userScroll ⟨false, none⟩).1.isUserScrolling = true ∧
      (scrollStep 0 ScrollEvent.userScroll ⟨false, none⟩).1.scrollTimeout = some 1000) ∧
    (scrollStep 1000 ScrollEvent.timerFire ⟨true, some 1000⟩).1.isUserScrolling = false ∧
    (∃ c f, ScrollEvent.autoCheck true true true true = ScrollEvent.autoCheck true c true f ∧
      (⟨false, some 1500⟩ : ScrollState).isUserScrolling = false) ∧
    (∀ τ ∈ invokedTimes (scrollStep 500 ScrollEvent.userScroll
        (scrollStep 0 ScrollEvent.userScroll ⟨false, none⟩).1).1
      [(600, ScrollEvent.autoCheck true true true true), (1500, ScrollEvent.timerFire),
       (1600, ScrollEvent.autoCheck true true true true)], 1500 ≤ τ) :=
  ⟨c9_scroll_coordinator.1 0 ⟨false, none⟩,
   (c9_scroll_coordinator.2.1 1000 ⟨true, some 1000⟩).1,
   c9_scroll_coordinator.2.2.1 600 (ScrollEvent.autoCheck true true true true)
     ⟨false, some 1500⟩ (by decide),
   c9_scroll_coordinator.2.2.2
     [(600, ScrollEvent.autoCheck true true true true), (1500, ScrollEvent.timerFire),
      (1600, ScrollEvent.autoCheck true true true true)] (by decide)⟩

/-!  Volume lemmas. -/

/-- C10: starting from any volume in [0, 1], every sequence of keyboard
volume steps (up: min(1, v + 0.1); down: max(0, v - 0.1)) keeps the volume
in [0, 1]; a volume change to exactly 0 sets muted, and a nonzero volume
change while muted unmutes. -/
theorem c10_volume_invariant :
    (∀ (st : VolumeState) (keys : List VolKey), 0 ≤ st.volume → st.volume ≤ 1 →
      0 ≤ (runVolumeKeys st keys).volume ∧ (runVolumeKeys st keys).volume ≤ 1) ∧
    (∀ st : VolumeState, (handleVolumeChange 0 st).isMuted = true) ∧
    (∀ (st : VolumeState) (v : ℚ), v ≠ 0 → st.isMuted = true →
      (handleVolumeChange v st).isMuted = false) := by
  refine ⟨?_, ?_, ?_⟩
  · intro st keys
    induction keys generalizing st with
    | nil => intro h0 h1; exact ⟨h0, h1⟩
    | cons k rest ih =>
      intro h0 h1
      show 0 ≤ (runVolumeKeys (handleVolumeKey k st) rest).volume ∧
        (runVolumeKeys (handleVolumeKey k st) rest).volume ≤ 1
      apply ih
      · cases k with
        | up =>
          show (0 : ℚ) ≤ min 1 (st.volume + 1 / 10)
          exact le_min (by norm_num) (by linarith)
        | down =>
          show (0 : ℚ) ≤ max 0 (st.volume - 1 / 10)
          exact le_max_left 0 _
      · cases k with
        | up =>
          show min 1 (st.volume + 1 / 10) ≤ (1 : ℚ)
          exact min_le_left 1 _
        | down =>
          show max 0 (st.volume - 1 / 10) ≤ (1 : ℚ)
          exact max_le (by norm_num) (by linarith)
  · intro st
    simp [handleVolumeChange]
  · intro st v hv hm
    simp [handleVolumeChange, hv, hm]

/-- Witness for C10: three volume-up steps from 0.8 stay within [0, 1]; a
change to 0 mutes; a nonzero change while muted unmutes. -/
theorem c10_volume_invariant_witness :
    (0 ≤ (runVolumeKeys ⟨4/5, false⟩ [VolKey.up, VolKey.up, VolKey.up]).volume ∧
      (runVolumeKeys ⟨4/5, false⟩ [VolKey.up, VolKey.up, VolKey.up]).volume ≤ 1) ∧
    (handleVolumeChange 0 ⟨1/2, false⟩).isMuted = true ∧
    (handleVolumeChange (1/2) ⟨0, true⟩).isMuted = false :=
  ⟨c10_volume_invariant.1 ⟨4/5, false⟩ [VolKey.up, VolKey.up, VolKey.up]
      (by norm_num) (by norm_num),
   c10_volume_invariant.2.1 ⟨1/2, false⟩,
   c10_volume_invariant.2.2 ⟨0, true⟩ (1/2) (by norm_num) rfl⟩
